import Mathlib

/-!
Verification of the openephys-zmq2osc core against its design specification.

The Python sources are shallowly embedded: each class becomes a structure,
each method a function on that structure.  Machine floats (numpy float32
sample values, `time.time()` timestamps) are modelled by exact rationals;
Python's in-place mutation becomes explicit state passing; `raise` becomes
`Except.error` (or a returned pair when an exception can escape after partial
mutation, as in `pop_data_all_channels`).  Real-time fields of `DataManager`
(`last_data_time`, `timeout_seconds`, `auto_reinit_enabled`,
`timeout_triggered`) drive no claim under scrutiny and are omitted from the
state.
-/

namespace Oez

/-! ## Channel Buffer Manager — core/services/data_manager.py -/

/-- One per-channel record, as built by `DataManager.init_empty_buffer` and
`DataManager.add_or_expand_channel`.  The numpy `float32` circular array is
modelled as a total function from buffer offset to sample value. -/
structure Channel where
  id : Nat
  label : String
  head_sample_number : Nat
  tail_index : Nat
  tail_sample_number : Nat
  data : Nat → ℚ

/-- A fresh all-zero channel record (`np.zeros(buffer_size)` etc.). -/
def freshChannel (i : Nat) (label : String) : Channel :=
  { id := i, label := label, head_sample_number := 0, tail_index := 0,
    tail_sample_number := 0, data := fun _ => 0 }

instance : Inhabited Channel := ⟨freshChannel 0 ""⟩

/-- State of `DataManager`.  `discovered_channels` is a Python `set`; it is
modelled as a duplicate-free list in insertion order (only membership and
cardinality are ever observed).  `max_channel_id` starts at `-1`, hence `Int`. -/
structure DataManager where
  channels : List Channel
  buffer_size : Nat
  lowest_tail_index : Nat
  channel_discovery_mode : Bool
  discovered_channels : List Nat
  max_channel_id : Int

/-- `DataManager.__init__`. -/
def mkDataManager : DataManager :=
  { channels := [], buffer_size := 30000, lowest_tail_index := 0,
    channel_discovery_mode := true, discovered_channels := [], max_channel_id := -1 }

/-- `DataManager.init_empty_buffer`.  (`num_samples` is only validated and
printed by the source, never stored.) -/
def init_empty_buffer (s : DataManager) (num_channels num_samples : Nat) :
    Except String DataManager :=
  if num_channels = 0 ∨ num_samples = 0 then
    .error "Number of channels and samples must be positive integers."
  else
    .ok { s with channels := (List.range num_channels).map (fun i => freshChannel i "") }

/-- Numpy slice assignment `f[start : start + vals.length] = vals`. -/
def sliceWrite (f : Nat → ℚ) (start : Nat) (vals : List ℚ) : Nat → ℚ :=
  fun j => if start ≤ j ∧ j < start + vals.length then vals.getD (j - start) 0 else f j

/-- Python slice read `f[start:stop]` (empty when `stop ≤ start`, as in Python
for non-negative indices). -/
def sliceRead (f : Nat → ℚ) (start stop : Nat) : List ℚ :=
  (List.range (stop - start)).map (fun k => f (start + k))

/-- Value assigned to `self.lowest_tail_index` by
`DataManager.update_lowest_tail_index`. -/
def computeLowestTailIndex (s : DataManager) : Nat :=
  if s.channels.isEmpty ∨ s.discovered_channels.isEmpty then 0
  else
    let discovered_tail_indices :=
      (s.discovered_channels.filter (fun ch_id => ch_id < s.channels.length)).map
        (fun ch_id => (s.channels.getD ch_id default).tail_index)
    match discovered_tail_indices.min? with
    | some m => m
    | none => 0

/-- `DataManager.update_lowest_tail_index`. -/
def update_lowest_tail_index (s : DataManager) : DataManager :=
  { s with lowest_tail_index := computeLowestTailIndex s }

/-- `DataManager.push_data` (the input block is already one-dimensional; the
source's `flatten()` is the identity on it).  Channel ids are naturals, so the
source's `channel_id < 0` guard is vacuous here. -/
def push_data (s : DataManager) (channel_id : Nat) (data : List ℚ) :
    Except String DataManager :=
  if channel_id < s.channels.length then
    let ch := s.channels.getD channel_id default
    let tail_index := ch.tail_index
    let num_samples := data.length
    if s.buffer_size < num_samples then .error "Data exceeds buffer size."
    else
      let end_index := tail_index + num_samples
      let newData :=
        if end_index ≤ s.buffer_size then sliceWrite ch.data tail_index data
        else
          let first_part := s.buffer_size - tail_index
          sliceWrite (sliceWrite ch.data tail_index (data.take first_part)) 0
            (data.drop first_part)
      let ch' :=
        { ch with
          data := newData
          tail_index := end_index % s.buffer_size
          tail_sample_number := ch.tail_sample_number + num_samples }
      .ok (update_lowest_tail_index { s with channels := s.channels.set channel_id ch' })
  else .error "Invalid channel ID."

/-- The effect of `DataManager.pop_data` on one channel record. -/
def popChannel (B : Nat) (ch : Channel) (num : Nat) : Channel :=
  { ch with
    head_sample_number := ch.head_sample_number + num
    tail_index := (((ch.tail_index : Int) - num) % (B : Int)).toNat }

/-- `DataManager.pop_data`.  `(tail_index - num) % buffer_size` is computed in
`Int` to match Python's always-non-negative `%`; `num ≤ 0` degenerates to
`num = 0` on naturals. -/
def pop_data (s : DataManager) (channel_id num : Nat) :
    Except String (DataManager × List ℚ) :=
  if channel_id < s.channels.length then
    let ch := s.channels.getD channel_id default
    if num = 0 ∨ ch.tail_sample_number - ch.head_sample_number < num then
      .error "Invalid number of samples to pop."
    else
      let new_tail_index : Nat := (((ch.tail_index : Int) - num) % (s.buffer_size : Int)).toNat
      let popped := sliceRead ch.data new_tail_index ch.tail_index
      .ok ({ s with channels := s.channels.set channel_id (popChannel s.buffer_size ch num) },
           popped)
  else .error "Invalid channel ID."

/-- Loop body of `DataManager.pop_data_all_channels`: iterate the channel list
(channel ids equal their positions by construction), checking and popping one
channel at a time.  An exception mid-loop escapes with the partially mutated
state, exactly as the Python object would be left. -/
def popAllGo (num : Nat) : DataManager → List Nat → List (List ℚ) →
    DataManager × Except String (List (List ℚ))
  | s, [], acc => (update_lowest_tail_index s, .ok acc.reverse)
  | s, i :: rest, acc =>
    let ch := s.channels.getD i default
    if ch.tail_sample_number - ch.head_sample_number < num then
      (s, .error ("Not enough data in channel " ++ toString ch.id ++ " to pop "
            ++ toString num ++ " samples."))
    else
      match pop_data s ch.id num with
      | .ok (s', popped) => popAllGo num s' rest (popped :: acc)
      | .error e => (s, .error e)

/-- `DataManager.pop_data_all_channels`. -/
def pop_data_all_channels (s : DataManager) (num : Nat) :
    DataManager × Except String (List (List ℚ)) :=
  if num = 0 then (s, .error "Number of samples to pop must be positive.")
  else popAllGo num s (List.range s.channels.length) []

/-- `DataManager.has_data_ready`. -/
def has_data_ready (s : DataManager) (min_samples : Nat) : Bool :=
  if s.channels.isEmpty then false
  else if s.channel_discovery_mode then false
  else min_samples ≤ s.lowest_tail_index

/-- Zero-padding of `f"CH{n:03d}"`. -/
def pad3 (n : Nat) : String :=
  if n < 10 then "00" ++ toString n
  else if n < 100 then "0" ++ toString n
  else toString n

/-- The `while len(self.channels) < required_channels` expansion loop of
`DataManager.add_or_expand_channel`. -/
def extendChannels (chs : List Channel) (required : Nat) : List Channel :=
  chs ++ (List.range' chs.length (required - chs.length)).map
    (fun new_id => freshChannel new_id ("CH" ++ pad3 new_id))

/-- `DataManager.add_or_expand_channel`; returns (discovery-completed?, state). -/
def add_or_expand_channel (s : DataManager) (channel_id : Nat)
    (channel_name : Option String) : Bool × DataManager :=
  if s.discovered_channels.contains channel_id then
    if s.channel_discovery_mode then
      (true, { s with channel_discovery_mode := false })
    else (false, s)
  else
    let discovered := s.discovered_channels ++ [channel_id]
    let maxId : Int := max s.max_channel_id (channel_id : Int)
    let required : Nat := (maxId + 1).toNat
    let channels := extendChannels s.channels required
    let channels :=
      match channel_name with
      | some nm =>
        if nm ≠ "" ∧ channel_id < channels.length then
          channels.set channel_id
            { (channels.getD channel_id default) with label := nm }
        else channels
      | none => channels
    (false,
      { s with
        discovered_channels := discovered
        max_channel_id := maxId
        channels := channels })

/-- Snapshot returned by `DataManager.reinit_for_new_setup`. -/
structure PreviousState where
  discovered_channels : List Nat
  total_channels : Nat
  buffer_channels : Nat
deriving DecidableEq

/-- `DataManager.reinit_for_new_setup`. -/
def reinit_for_new_setup (s : DataManager) : PreviousState × DataManager :=
  let previous : PreviousState :=
    { discovered_channels := s.discovered_channels,
      total_channels := s.discovered_channels.length,
      buffer_channels := s.channels.length }
  let s1 :=
    { s with
      channels := []
      discovered_channels := []
      max_channel_id := -1
      channel_discovery_mode := true
      lowest_tail_index := 0 }
  let s2 :=
    match init_empty_buffer s1 1 s.buffer_size with
    | .ok t => t
    | .error _ => s1
  (previous, s2)

/-- Number of unconsumed samples of a channel
(`tail_sample_number - head_sample_number`). -/
def unconsumed (ch : Channel) : Nat := ch.tail_sample_number - ch.head_sample_number

/-- Extract the success payload of an `Except`, with a fallback. -/
def getOkD {α : Type _} (e : Except String α) (d : α) : α :=
  match e with
  | .ok a => a
  | .error _ => d

/-- Extract the error message of an `Except` (empty string on success). -/
def errMsg {α : Type _} (e : Except String α) : String :=
  match e with
  | .error m => m
  | .ok _ => ""

/-- The manager as constructed by `ZMQService.__init__`: `DataManager()`
followed by the bootstrap `init_empty_buffer(num_channels=1, num_samples=30000)`. -/
def dmBoot : DataManager := getOkD (init_empty_buffer mkDataManager 1 30000) mkDataManager

/-- States of the Channel Buffer Manager reachable through the operations the
connection service invokes on it: the bootstrap state, channel discovery,
successful pushes, `pop_data_all_channels` (whether it succeeds or raises), and
reinitialization. -/
inductive Reachable : DataManager → Prop
  | boot : Reachable dmBoot
  | discover (s : DataManager) (id : Nat) (name : Option String) :
      Reachable s → Reachable (add_or_expand_channel s id name).2
  | push (s : DataManager) (cid : Nat) (data : List ℚ) (s' : DataManager) :
      Reachable s → push_data s cid data = .ok s' → Reachable s'
  | popAll (s : DataManager) (n : Nat) :
      Reachable s → Reachable (pop_data_all_channels s n).1
  | reinit (s : DataManager) :
      Reachable s → Reachable (reinit_for_new_setup s).2

/-! ## Output Delivery Queue — enqueue path of core/services/osc_service.py -/

/-- Queue-relevant state of `OSCService` (the item type is abstract: the source
enqueues `(receive_time, datalist, batch_delay_ms)` triples). -/
structure OSCQueue (α : Type _) where
  data_queue : List α
  queue_max_size : Nat
  queue_overflow_strategy : String
  queue_overflows : Nat
  messages_dropped : Nat

/-- A fresh queue with the given bound and overflow strategy. -/
def mkOSCQueue (α : Type _) (max_size : Nat) (strategy : String) : OSCQueue α :=
  { data_queue := [], queue_max_size := max_size, queue_overflow_strategy := strategy,
    queue_overflows := 0, messages_dropped := 0 }

/-- `OSCService._handle_queue_overflow`. -/
def handle_queue_overflow {α : Type _} (q : OSCQueue α) : OSCQueue α :=
  let q1 := { q with queue_overflows := q.queue_overflows + 1 }
  if q1.queue_overflow_strategy = "drop_oldest" then
    match q1.data_queue with
    | [] => q1
    | _ :: rest =>
      { q1 with
        data_queue := rest
        messages_dropped := q1.messages_dropped + 1 }
  else if q1.queue_overflow_strategy = "drop_newest" then
    { q1 with messages_dropped := q1.messages_dropped + 1 }
  else q1

/-- Queue-management tail of `OSCService._on_data_received`: overflow handling
followed by the (unconditional) append of the incoming item. -/
def on_data_received {α : Type _} (q : OSCQueue α) (item : α) : OSCQueue α :=
  let q1 := if q.queue_max_size ≤ q.data_queue.length then handle_queue_overflow q else q
  { q1 with data_queue := q1.data_queue ++ [item] }

/-! ## Connection State Machine, heartbeat path — core/services/zmq_service.py -/

/-- The `ConnectionStatus` enum of `zmq_service.py`. -/
inductive ConnectionStatus where
  | not_connected
  | disconnected
  | reconnecting
  | connecting
  | connected
  | online
  | not_responding
deriving DecidableEq

/-- Heartbeat-relevant state of `ZMQService`.  Timestamps are rationals
(seconds); `reconnect_count` is a ghost counter of completed socket
teardown/rebuild cycles, to express "rebuilt exactly once". -/
structure HeartbeatState where
  connection_status : ConnectionStatus
  last_heartbeat_timestamp : ℚ
  last_reply_timestamp : ℚ
  socket_waits_reply : Bool
  reconnect_count : Nat
deriving DecidableEq

/-- `self.heartbeat_timeout_duration = 2.0`. -/
def heartbeat_timeout_duration : ℚ := 2

/-- `self.not_responding_timeout_duration = 10.0`. -/
def not_responding_timeout_duration : ℚ := 10

/-- `ZMQService._send_heartbeat`, success path (the send itself is I/O). -/
def send_heartbeat (s : HeartbeatState) (now : ℚ) : HeartbeatState :=
  { s with
    last_heartbeat_timestamp := now
    socket_waits_reply := true }

/-- `ZMQService._init_sockets`, success path: the status passes through
`CONNECTING` and lands on `CONNECTED`; the returned list is the sequence of
status values published during the call. -/
def init_sockets (s : HeartbeatState) : HeartbeatState × List ConnectionStatus :=
  ({ s with connection_status := ConnectionStatus.connected },
   [ConnectionStatus.connecting, ConnectionStatus.connected])

/-- `ZMQService._reconnect`, success path: close and rebuild the socket pair
(counted by `reconnect_count`), clear the pending-reply flag and reset the
last-reply clock. -/
def zmq_reconnect (s : HeartbeatState) (now : ℚ) : HeartbeatState × List ConnectionStatus :=
  let r := init_sockets s
  ({ r.1 with
     socket_waits_reply := false
     last_reply_timestamp := now
     reconnect_count := s.reconnect_count + 1 }, r.2)

/-- `ZMQService._handle_heartbeat_timeout`, one polling tick at time `now`.
Returns the new state and the sequence of status values published. -/
def handle_heartbeat_timeout (s : HeartbeatState) (now : ℚ) :
    HeartbeatState × List ConnectionStatus :=
  if heartbeat_timeout_duration < now - s.last_heartbeat_timestamp then
    if s.socket_waits_reply then
      let s1 :=
        { s with
          connection_status := ConnectionStatus.not_responding
          last_heartbeat_timestamp := s.last_heartbeat_timestamp + 1 }
      if not_responding_timeout_duration < now - s1.last_reply_timestamp then
        let s2 := { s1 with connection_status := ConnectionStatus.reconnecting }
        let r := zmq_reconnect s2 now
        (r.1, ConnectionStatus.not_responding :: ConnectionStatus.reconnecting :: r.2)
      else (s1, [ConnectionStatus.not_responding])
    else (send_heartbeat s now, [])
  else (s, [])

/-! ## Signal Processing Pipeline — core/utils/signal_processing.py -/

/-- State of `DownsamplingBuffer`.  `sample_buffer` is the
`(downsampling_factor, num_channels)` numpy array as a list of rows. -/
structure DownsamplingBuffer where
  num_channels : Nat
  downsampling_factor : Nat
  method : String
  sample_buffer : List (List ℚ)
  buffer_position : Nat
  samples_accumulated : Nat

/-- `DownsamplingBuffer.__init__`. -/
def mkDownsamplingBuffer (num_channels downsampling_factor : Nat) (method : String) :
    DownsamplingBuffer :=
  { num_channels := num_channels, downsampling_factor := downsampling_factor,
    method := method,
    sample_buffer := List.replicate downsampling_factor (List.replicate num_channels 0),
    buffer_position := 0, samples_accumulated := 0 }

/-- `np.mean(rows, axis=0)` for an `(nrows, nc)` array, in exact arithmetic. -/
def npMeanAxis0 (rows : List (List ℚ)) (nrows nc : Nat) : List ℚ :=
  (List.range nc).map (fun c => (rows.map (fun r => r.getD c 0)).sum / nrows)

/-- The reduction performed when the downsampling window is full: `average`,
`decimate` (`sample_buffer[-1]`), or the `average` fallback for anything else. -/
def downsampleReduce (s : DownsamplingBuffer) (buf : List (List ℚ)) : List ℚ :=
  if s.method = "average" then npMeanAxis0 buf s.downsampling_factor s.num_channels
  else if s.method = "decimate" then buf.getLastD []
  else npMeanAxis0 buf s.downsampling_factor s.num_channels

/-- One iteration of the `for sample in samples` loop of
`DownsamplingBuffer.add_samples`. -/
def dsAddOne (s : DownsamplingBuffer) (sample : List ℚ) :
    DownsamplingBuffer × List (List ℚ) :=
  let buf := s.sample_buffer.set s.buffer_position sample
  if s.downsampling_factor ≤ s.buffer_position + 1 then
    ({ s with
       sample_buffer := buf
       buffer_position := 0
       samples_accumulated := s.samples_accumulated + 1 }, [downsampleReduce s buf])
  else
    ({ s with
       sample_buffer := buf
       buffer_position := s.buffer_position + 1
       samples_accumulated := s.samples_accumulated + 1 }, [])

/-- `DownsamplingBuffer.add_samples` on an already-row-shaped input
(the source's ndim juggling normalizes to this shape). -/
def dsAddSamples (s : DownsamplingBuffer) : List (List ℚ) →
    DownsamplingBuffer × List (List ℚ)
  | [] => (s, [])
  | x :: rest =>
    let r := dsAddOne s x
    let r2 := dsAddSamples r.1 rest
    (r2.1, r.2 ++ r2.2)

/-- `DownsamplingBuffer.reset`. -/
def dsReset (s : DownsamplingBuffer) : DownsamplingBuffer :=
  { s with
    sample_buffer := List.replicate s.downsampling_factor (List.replicate s.num_channels 0)
    buffer_position := 0
    samples_accumulated := 0 }

/-- Batch dictionary produced by `BatchingBuffer._create_batch_dict`. -/
structure Batch where
  chunk_size : Nat
  num_channels : Nat
  flattened_data : List ℚ
deriving DecidableEq

/-- State of `BatchingBuffer`. -/
structure BatchingBuffer where
  num_channels : Nat
  batch_size : Nat
  batch_timeout_ms : ℚ
  sample_buffer : List (List ℚ)
  last_batch_time : ℚ

/-- `BatchingBuffer.__init__` at construction time `now`. -/
def mkBatchingBuffer (num_channels batch_size : Nat) (batch_timeout_ms now : ℚ) :
    BatchingBuffer :=
  { num_channels := num_channels, batch_size := batch_size,
    batch_timeout_ms := batch_timeout_ms, sample_buffer := [], last_batch_time := now }

/-- `BatchingBuffer._create_batch_dict`: channel-major flattening. -/
def create_batch_dict (nc : Nat) (batch_data : List (List ℚ)) : Batch :=
  { chunk_size := batch_data.length, num_channels := nc,
    flattened_data :=
      (List.range nc).flatMap (fun ch_idx => batch_data.map (fun sample => sample.getD ch_idx 0)) }

/-- One iteration of the `for sample in samples` loop of
`BatchingBuffer.add_samples`. -/
def bbAddOne (s : BatchingBuffer) (sample : List ℚ) (now : ℚ) :
    BatchingBuffer × List Batch :=
  let buf := s.sample_buffer ++ [sample]
  if s.batch_size ≤ buf.length then
    ({ s with
       sample_buffer := buf.drop s.batch_size
       last_batch_time := now }, [create_batch_dict s.num_channels (buf.take s.batch_size)])
  else ({ s with sample_buffer := buf }, [])

/-- The sample loop of `BatchingBuffer.add_samples`. -/
def bbLoop (now : ℚ) : BatchingBuffer → List (List ℚ) → BatchingBuffer × List Batch
  | s, [] => (s, [])
  | s, x :: rest =>
    let r := bbAddOne s x now
    let r2 := bbLoop now r.1 rest
    (r2.1, r.2 ++ r2.2)

/-- `BatchingBuffer.add_samples`: the sample loop, then the timeout-based
flush check.  The several `time.time()` reads within one call are modelled by
the single instant `now`. -/
def bbAddSamples (s : BatchingBuffer) (samples : List (List ℚ)) (now : ℚ) :
    BatchingBuffer × List Batch :=
  let r := bbLoop now s samples
  let s1 := r.1
  if ¬ s1.sample_buffer.isEmpty ∧ s1.batch_timeout_ms ≤ (now - s1.last_batch_time) * 1000 then
    ({ s1 with
       sample_buffer := []
       last_batch_time := now }, r.2 ++ [create_batch_dict s1.num_channels s1.sample_buffer])
  else (s1, r.2)

/-- `BatchingBuffer.flush_pending`. -/
def bb_flush_pending (s : BatchingBuffer) (now : ℚ) : BatchingBuffer × Option Batch :=
  if ¬ s.sample_buffer.isEmpty then
    ({ s with
       sample_buffer := []
       last_batch_time := now }, some (create_batch_dict s.num_channels s.sample_buffer))
  else (s, none)

/-! ## Concrete scenario states used by the claims -/

/-- Discovery of channel 0 from the bootstrap state. -/
def dmA : DataManager := (add_or_expand_channel dmBoot 0 none).2

/-- Repeat sighting of channel 0: discovery completes over the set `{0}`. -/
def dmDisc0 : DataManager := (add_or_expand_channel dmA 0 none).2

/-- After pushing exactly `buffer_size = 30000` samples to channel 0 of
`dmDisc0`: the write fills the whole circular buffer and the tail index wraps
to 0. -/
def wrapState : DataManager :=
  getOkD (push_data dmDisc0 0 (List.replicate 30000 1)) dmDisc0

/-- Discovery of channels 0 and 1 (both still in discovery mode). -/
def c4base : DataManager := (add_or_expand_channel dmA 1 none).2

/-- 300 samples on channel 0. -/
def c4mid : DataManager := getOkD (push_data c4base 0 (List.replicate 300 1)) c4base

/-- 300 unconsumed samples on channel 0 and 100 on channel 1. -/
def c4state : DataManager := getOkD (push_data c4mid 1 (List.replicate 100 2)) c4mid

/-- 500 samples pushed to channel 0 while it is the only discovered channel:
`lowest_tail_index` is refreshed to 500. -/
def staleMid : DataManager := getOkD (push_data dmA 0 (List.replicate 500 1)) dmA

/-- Channel 1 is then discovered (no push, so `lowest_tail_index` stays 500). -/
def staleMid2 : DataManager := (add_or_expand_channel staleMid 1 none).2

/-- A repeat sighting of channel 0 completes discovery while
`lowest_tail_index` is still the stale value 500 and channel 1 holds nothing. -/
def staleState : DataManager := (add_or_expand_channel staleMid2 0 none).2

/-- Discovery of channels 0 and 1 followed by the discovery-completing repeat. -/
def exC : DataManager := (add_or_expand_channel c4base 0 none).2

/-- 500 samples on channel 0. -/
def exD : DataManager := getOkD (push_data exC 0 (List.replicate 500 1)) exC

/-- The spec's synchronization-barrier scenario: discovery complete, channel 0
holds 500 unconsumed samples and channel 1 holds 300. -/
def ex500 : DataManager := getOkD (push_data exD 1 (List.replicate 300 2)) exD

/-- Channel 0 of `wrapState`: the full buffer has been written and the tail
index has wrapped to 0. -/
def wrapCh : Channel :=
  { id := 0, label := "", head_sample_number := 0, tail_index := 0,
    tail_sample_number := 30000,
    data := sliceWrite (fun _ => 0) 0 (List.replicate 30000 1) }

/-- Discovery of channels 0, 1 and 2 (still in discovery mode): three buffer
channels, `discovered_channels = [0,1,2]`. -/
def triState : DataManager := (add_or_expand_channel c4base 2 none).2

/-- `triState` after an `init_empty_buffer(1, 1)` call: the channel array is
shrunk back to a single channel while the discovered set still holds 1 and 2. -/
def shrunkState : DataManager := getOkD (init_empty_buffer triState 1 1) triState

/-- Sequential row writes `buf[p] := xs[0]`, `buf[p+1] := xs[1]`, … — the
cumulative effect of the downsampling window writes, used to state evaluation
lemmas about `dsAddSamples`. -/
def writeRows (buf : List (List ℚ)) (p : Nat) : List (List ℚ) → List (List ℚ)
  | [] => buf
  | x :: rest => writeRows (buf.set p x) (p + 1) rest

/-- The claimed C10 invariant: every discovered channel id indexes into the
channel array. -/
def InvD (s : DataManager) : Prop :=
  ∀ id ∈ s.discovered_channels, id < s.channels.length

/-- Invariants of every manager state reachable through the service's use of
the Channel Buffer Manager (see `Reachable`): the buffer capacity is the
constructor's 30000; discovered ids index the channel array; ids equal
positions; consumption never overtakes production; and each tail index is the
unconsumed count modulo the capacity.  Discovery being closed implies a
non-empty discovered set. -/
structure DMInv (s : DataManager) : Prop where
  buf : s.buffer_size = 30000
  disc_lt : ∀ id ∈ s.discovered_channels, id < s.channels.length
  ids : ∀ i, i < s.channels.length → (s.channels.getD i default).id = i
  head_le : ∀ i, i < s.channels.length →
    (s.channels.getD i default).head_sample_number ≤
      (s.channels.getD i default).tail_sample_number
  tail_mod : ∀ i, i < s.channels.length →
    (s.channels.getD i default).tail_index = unconsumed (s.channels.getD i default) % 30000
  mode_disc : s.channel_discovery_mode = false → s.discovered_channels ≠ []

/-- A heartbeat state with a reply pending since time `0` and the last
successful reply 9 seconds before that. -/
def hbEx : HeartbeatState :=
  { connection_status := ConnectionStatus.online, last_heartbeat_timestamp := 0,
    last_reply_timestamp := -9, socket_waits_reply := true, reconnect_count := 0 }

/-! ## Theorems -/

/-- Claim C8: starting from the freshly constructed manager, feeding the
channel-id sequence `0, 1, 2, 0` to `add_or_expand_channel` returns `false`
on the first three calls and `true` exactly on the fourth (the repeat sighting
of id 0), after which discovery mode is closed and the discovered-channel set
is `{0, 1, 2}`. -/
theorem C8_discovery_completion :
    (add_or_expand_channel dmBoot 0 none).1 = false ∧
    (add_or_expand_channel dmA 1 none).1 = false ∧
    (add_or_expand_channel c4base 2 none).1 = false ∧
    (add_or_expand_channel (add_or_expand_channel c4base 2 none).2 0 none).1 = true ∧
    (add_or_expand_channel (add_or_expand_channel c4base 2 none).2 0 none).2.channel_discovery_mode = false ∧
    (add_or_expand_channel (add_or_expand_channel c4base 2 none).2 0 none).2.discovered_channels = [0, 1, 2] := by
  decide

/-- Claim C3: with maximum depth 5, enqueueing the items `1..6` leaves
`[2,3,4,5,6]` and one drop under `drop_oldest`, but under `drop_newest` the
incoming sixth item is NOT discarded: the code counts a drop and appends the
item anyway, leaving `[1,2,3,4,5,6]` in the queue.  This evaluates the
enqueue path at the claim's input and exhibits the divergence. -/
theorem C3_queue_overflow_eval :
    (([1, 2, 3, 4, 5, 6] : List Nat).foldl on_data_received
        (mkOSCQueue Nat 5 "drop_oldest")).data_queue = [2, 3, 4, 5, 6] ∧
    (([1, 2, 3, 4, 5, 6] : List Nat).foldl on_data_received
        (mkOSCQueue Nat 5 "drop_oldest")).messages_dropped = 1 ∧
    (([1, 2, 3, 4, 5, 6] : List Nat).foldl on_data_received
        (mkOSCQueue Nat 5 "drop_newest")).data_queue = [1, 2, 3, 4, 5, 6] ∧
    (([1, 2, 3, 4, 5, 6] : List Nat).foldl on_data_received
        (mkOSCQueue Nat 5 "drop_newest")).messages_dropped = 1 ∧
    (([1, 2, 3, 4, 5, 6] : List Nat).foldl on_data_received
        (mkOSCQueue Nat 5 "drop_newest")).queue_overflows = 1 := by
  decide

/-- Claim C7: `reinit_for_new_setup` is idempotent — a second call leaves the
same single-placeholder bootstrap state (one buffer channel, empty
discovered-channel set, discovery mode open), and the second call's snapshot
reports the bootstrap buffer-channel count 1, not the pre-first-reinit count. -/
theorem C7_reinit_idempotent (s : DataManager) (h : 0 < s.buffer_size) :
    (reinit_for_new_setup (reinit_for_new_setup s).2).2 = (reinit_for_new_setup s).2 ∧
    (reinit_for_new_setup s).2.channels.length = 1 ∧
    (reinit_for_new_setup s).2.discovered_channels = [] ∧
    (reinit_for_new_setup s).2.channel_discovery_mode = true ∧
    (reinit_for_new_setup (reinit_for_new_setup s).2).1 =
      { discovered_channels := [], total_channels := 0, buffer_channels := 1 } := by
  have hb0 : s.buffer_size ≠ 0 := by omega
  simp [reinit_for_new_setup, init_empty_buffer, hb0]

/-- Claim C7, witnessed at the bootstrap manager. -/
theorem C7_reinit_idempotent_witness :
    0 < dmBoot.buffer_size ∧
    ((reinit_for_new_setup (reinit_for_new_setup dmBoot).2).2 = (reinit_for_new_setup dmBoot).2 ∧
     (reinit_for_new_setup dmBoot).2.channels.length = 1 ∧
     (reinit_for_new_setup dmBoot).2.discovered_channels = [] ∧
     (reinit_for_new_setup dmBoot).2.channel_discovery_mode = true ∧
     (reinit_for_new_setup (reinit_for_new_setup dmBoot).2).1 =
       { discovered_channels := [], total_channels := 0, buffer_channels := 1 }) :=
  ⟨by decide, C7_reinit_idempotent dmBoot (by decide)⟩

/-- The bootstrap manager, explicitly. -/
theorem dmBoot_eq :
    dmBoot =
      { channels := [freshChannel 0 ""], buffer_size := 30000, lowest_tail_index := 0,
        channel_discovery_mode := true, discovered_channels := [], max_channel_id := -1 } :=
  rfl

/-- The manager after discovery has completed over the singleton set `{0}`. -/
theorem dmDisc0_eq :
    dmDisc0 =
      { channels := [freshChannel 0 ""], buffer_size := 30000, lowest_tail_index := 0,
        channel_discovery_mode := false, discovered_channels := [0], max_channel_id := 0 } :=
  rfl

/-- Pushing any block of exactly `buffer_size` samples onto channel 0 of
`dmDisc0` fills the buffer and wraps the tail index back to 0. -/
theorem push_full_eval (d : List ℚ) (hd : d.length = 30000) :
    push_data dmDisc0 0 d =
      .ok { channels := [{ id := 0, label := "", head_sample_number := 0, tail_index := 0,
                           tail_sample_number := 30000, data := sliceWrite (fun _ => 0) 0 d }],
            buffer_size := 30000, lowest_tail_index := 0, channel_discovery_mode := false,
            discovered_channels := [0], max_channel_id := 0 } := by
  rw [dmDisc0_eq]
  simp [push_data, hd, update_lowest_tail_index, computeLowestTailIndex, freshChannel]

/-- Evaluation of the 30000-sample push. -/
theorem wrapState_eq :
    wrapState =
      { channels := [wrapCh], buffer_size := 30000, lowest_tail_index := 0,
        channel_discovery_mode := false, discovered_channels := [0], max_channel_id := 0 } := by
  show getOkD (push_data dmDisc0 0 (List.replicate 30000 1)) dmDisc0 = _
  rw [push_full_eval _ (List.length_replicate _ _)]
  rfl

/-- Claim C2: evaluation of the failing input.  After exactly `B = 30000`
samples have been pushed (cumulative unconsumed size equal to the capacity,
so the popped range wraps), `pop_data_all_channels 1` succeeds but returns an
EMPTY array for the channel instead of the last pushed sample — the slice
`data[new_tail_index:tail_index]` with `new_tail_index = 29999 > tail_index = 0`
is empty — and the sample is nevertheless consumed (head advances). -/
theorem C2_pop_wraparound_eval :
    unconsumed (wrapState.channels.getD 0 default) = 30000 ∧
    errMsg (pop_data_all_channels wrapState 1).2 = "" ∧
    getOkD (pop_data_all_channels wrapState 1).2 [[1]] = [[]] ∧
    unconsumed ((pop_data_all_channels wrapState 1).1.channels.getD 0 default) = 29999 := by
  rw [wrapState_eq]
  simp [pop_data_all_channels, popAllGo, pop_data, popChannel, sliceRead, unconsumed,
    update_lowest_tail_index, computeLowestTailIndex, wrapCh, getOkD, errMsg,
    -List.reduceReplicate]

/-- Claim C4 fails on the code: `pop_data_all_channels` is not atomic.  With
300 unconsumed samples on channel 0 and only 100 on channel 1, `pop_all(200)`
raises `InsufficientData` for channel 1, but by then channel 0 has already had
200 samples removed (its `head_sample_number` moved 0 → 200). -/
theorem C4_counterexample :
    unconsumed (c4state.channels.getD 0 default) = 300 ∧
    unconsumed (c4state.channels.getD 1 default) = 100 ∧
    (c4state.channels.getD 0 default).head_sample_number = 0 ∧
    errMsg (pop_data_all_channels c4state 200).2 =
      "Not enough data in channel 1 to pop 200 samples." ∧
    ((pop_data_all_channels c4state 200).1.channels.getD 0 default).head_sample_number = 200 := by
  set_option maxRecDepth 10000 in decide

/-- Auxiliary: `List.getD` after `List.set` at the written index. -/
theorem getD_set_self {α : Type _} (l : List α) (i : Nat) (a d : α) (h : i < l.length) :
    (l.set i a).getD i d = a := by
  simp [List.getD_eq_getElem?_getD, List.getElem?_set_eq_of_lt, h]

/-- Auxiliary: `List.getD` after `List.set` at a different index. -/
theorem getD_set_ne {α : Type _} (l : List α) (i j : Nat) (a d : α) (h : i ≠ j) :
    (l.set i a).getD j d = l.getD j d := by
  simp [List.getD_eq_getElem?_getD, List.getElem?_set_ne, h]

/-- `update_lowest_tail_index` only refreshes the cached minimum. -/
@[simp]
theorem update_lowest_tail_index_channels (s : DataManager) :
    (update_lowest_tail_index s).channels = s.channels := rfl

/-- Evaluation of `pop_data` when its validity checks pass. -/
theorem pop_data_eval (s : DataManager) (i num : Nat)
    (hi : i < s.channels.length) (hnum : num ≠ 0)
    (hcnt : ¬ ((s.channels.getD i default).tail_sample_number -
               (s.channels.getD i default).head_sample_number < num)) :
    pop_data s i num =
      .ok ({ s with
             channels := s.channels.set i (popChannel s.buffer_size (s.channels.getD i default) num) },
           sliceRead (s.channels.getD i default).data
             ((((s.channels.getD i default).tail_index : Int) - num) % (s.buffer_size : Int)).toNat
             (s.channels.getD i default).tail_index) := by
  have hcnt2 : num ≤ s.channels[i].tail_sample_number - s.channels[i].head_sample_number := by
    have hg := List.getD_eq_getElem s.channels default hi
    rw [← hg]; omega
  simp [pop_data, hi, hnum, hcnt, hcnt2]

/-- Behaviour of the `pop_data_all_channels` loop over a block of channels that
all hold enough samples: every channel in the block is popped, every channel
outside it is untouched, and one array per visited channel is accumulated. -/
theorem popAllGo_ok (num : Nat) (hnum : num ≠ 0) :
    ∀ (count start : Nat) (s : DataManager) (acc : List (List ℚ)),
      start + count ≤ s.channels.length →
      (∀ i, start ≤ i → i < start + count → (s.channels.getD i default).id = i) →
      (∀ i, start ≤ i → i < start + count → num ≤ unconsumed (s.channels.getD i default)) →
      ∃ s' out,
        popAllGo num s (List.range' start count) acc = (update_lowest_tail_index s', .ok out) ∧
        out.length = acc.length + count ∧
        s'.channels.length = s.channels.length ∧
        s'.buffer_size = s.buffer_size ∧
        (∀ i, i < start ∨ start + count ≤ i →
          s'.channels.getD i default = s.channels.getD i default) ∧
        (∀ i, start ≤ i → i < start + count →
          s'.channels.getD i default = popChannel s.buffer_size (s.channels.getD i default) num) := by
  intro count
  induction count with
  | zero =>
    intro start s acc hlen hid hcnt
    refine ⟨s, acc.reverse, by simp [popAllGo], by simp, rfl, rfl, fun i _ => rfl,
      fun i h1 h2 => ?_⟩
    omega
  | succ n ih =>
    intro start s acc hlen hid hcnt
    have hstart_lt : start < s.channels.length := by omega
    have hid0 : (s.channels.getD start default).id = start := hid start le_rfl (by omega)
    have hcnt0 : num ≤ unconsumed (s.channels.getD start default) := hcnt start le_rfl (by omega)
    have hcheck : ¬ ((s.channels.getD start default).tail_sample_number -
        (s.channels.getD start default).head_sample_number < num) := by
      unfold unconsumed at hcnt0; omega
    set ch0 := s.channels.getD start default with hch0
    set s1 : DataManager :=
      { s with channels := s.channels.set start (popChannel s.buffer_size ch0 num) } with hs1
    have hstep : popAllGo num s (List.range' start (n + 1)) acc =
        popAllGo num s1 (List.range' (start + 1) n)
          (sliceRead ch0.data (((ch0.tail_index : Int) - num) % (s.buffer_size : Int)).toNat
            ch0.tail_index :: acc) := by
      rw [List.range'_succ]
      rw [popAllGo]
      rw [if_neg hcheck, hid0, pop_data_eval s start num hstart_lt hnum hcheck]
    have hlen1 : s1.channels.length = s.channels.length := by simp [hs1]
    obtain ⟨s', out, heq, hout, hlen', hbuf', houtside, hinside⟩ :=
      ih (start + 1) s1 (_ :: acc) (by omega)
        (fun i h1 h2 => by
          rw [hs1]
          show ((s.channels.set start (popChannel s.buffer_size ch0 num)).getD i default).id = i
          rw [getD_set_ne _ _ _ _ _ (by omega)]
          exact hid i (by omega) (by omega))
        (fun i h1 h2 => by
          rw [hs1]
          show num ≤ unconsumed ((s.channels.set start (popChannel s.buffer_size ch0 num)).getD i default)
          rw [getD_set_ne _ _ _ _ _ (by omega)]
          exact hcnt i (by omega) (by omega))
    refine ⟨s', out, by rw [hstep]; exact heq, ?_, by omega, hbuf', ?_, ?_⟩
    · simp only [List.length_cons] at hout
      omega
    · intro i hi
      have h1 : s'.channels.getD i default = s1.channels.getD i default := by
        apply houtside; omega
      rw [h1, hs1]
      show (s.channels.set start (popChannel s.buffer_size ch0 num)).getD i default = _
      rw [getD_set_ne _ _ _ _ _ (by omega)]
    · intro i h1 h2
      rcases Nat.eq_or_lt_of_le h1 with he | hlt
      · subst he
        have h3 : s'.channels.getD start default = s1.channels.getD start default := by
          apply houtside; omega
        rw [h3, hs1]
        show (s.channels.set start (popChannel s.buffer_size ch0 num)).getD start default = _
        rw [getD_set_self _ _ _ _ hstart_lt, hch0]
      · have h3 : s'.channels.getD i default =
            popChannel s1.buffer_size (s1.channels.getD i default) num := by
          apply hinside i (by omega) (by omega)
        rw [h3, hs1]
        show popChannel s.buffer_size
            ((s.channels.set start (popChannel s.buffer_size ch0 num)).getD i default) num = _
        rw [getD_set_ne _ _ _ _ _ (by omega)]

/-- Behaviour of the `pop_data_all_channels` loop when channel `k` is the
first visited channel with fewer than `num` unconsumed samples: the loop
raises there, leaving channels before `k` already popped and channels from `k`
on untouched. -/
theorem popAllGo_fail (num : Nat) (hnum : num ≠ 0) :
    ∀ (count start : Nat) (s : DataManager) (acc : List (List ℚ)) (k : Nat),
      start + count ≤ s.channels.length →
      start ≤ k → k < start + count →
      (∀ i, start ≤ i → i < k → (s.channels.getD i default).id = i) →
      (∀ i, start ≤ i → i < k → num ≤ unconsumed (s.channels.getD i default)) →
      unconsumed (s.channels.getD k default) < num →
      ∃ s' msg,
        popAllGo num s (List.range' start count) acc = (s', .error msg) ∧
        s'.channels.length = s.channels.length ∧
        (∀ i, i < start ∨ k ≤ i → s'.channels.getD i default = s.channels.getD i default) ∧
        (∀ i, start ≤ i → i < k →
          s'.channels.getD i default = popChannel s.buffer_size (s.channels.getD i default) num) := by
  intro count
  induction count with
  | zero =>
    intro start s acc k hlen hk1 hk2 hid hcnt hdef
    omega
  | succ n ih =>
    intro start s acc k hlen hk1 hk2 hid hcnt hdef
    rcases Nat.eq_or_lt_of_le hk1 with he | hlt
    · subst he
      have hcheck : (s.channels.getD start default).tail_sample_number -
          (s.channels.getD start default).head_sample_number < num := by
        unfold unconsumed at hdef; omega
      refine ⟨s, "Not enough data in channel " ++ toString (s.channels.getD start default).id
          ++ " to pop " ++ toString num ++ " samples.",
        ?_, rfl, fun i _ => rfl, fun i h1 h2 => by omega⟩
      rw [List.range'_succ, popAllGo, if_pos hcheck]
    · have hstart_lt : start < s.channels.length := by omega
      have hid0 : (s.channels.getD start default).id = start := hid start le_rfl hlt
      have hcnt0 : num ≤ unconsumed (s.channels.getD start default) := hcnt start le_rfl hlt
      have hcheck : ¬ ((s.channels.getD start default).tail_sample_number -
          (s.channels.getD start default).head_sample_number < num) := by
        unfold unconsumed at hcnt0; omega
      set ch0 := s.channels.getD start default with hch0
      set s1 : DataManager :=
        { s with channels := s.channels.set start (popChannel s.buffer_size ch0 num) } with hs1
      have hstep : popAllGo num s (List.range' start (n + 1)) acc =
          popAllGo num s1 (List.range' (start + 1) n)
            (sliceRead ch0.data (((ch0.tail_index : Int) - num) % (s.buffer_size : Int)).toNat
              ch0.tail_index :: acc) := by
        rw [List.range'_succ]
        rw [popAllGo]
        rw [if_neg hcheck, hid0, pop_data_eval s start num hstart_lt hnum hcheck]
      have hgetne : ∀ i, i ≠ start → s1.channels.getD i default = s.channels.getD i default := by
        intro i hne
        rw [hs1]
        show (s.channels.set start (popChannel s.buffer_size ch0 num)).getD i default = _
        rw [getD_set_ne _ _ _ _ _ (by omega)]
      obtain ⟨s', msg, heq, hlen', houtside, hinside⟩ :=
        ih (start + 1) s1 (_ :: acc) k (by simp [hs1]; omega) (by omega) (by omega)
          (fun i h1 h2 => by rw [hgetne i (by omega)]; exact hid i (by omega) h2)
          (fun i h1 h2 => by rw [hgetne i (by omega)]; exact hcnt i (by omega) h2)
          (by rw [hgetne k (by omega)]; exact hdef)
      refine ⟨s', msg, by rw [hstep]; exact heq, by simp [hs1] at hlen'; exact hlen', ?_, ?_⟩
      · intro i hi
        have h1 : s'.channels.getD i default = s1.channels.getD i default := by
          apply houtside; omega
        rw [h1, hgetne i (by omega)]
      · intro i h1 h2
        rcases Nat.eq_or_lt_of_le h1 with he | hlt2
        · subst he
          have h3 : s'.channels.getD start default = s1.channels.getD start default := by
            apply houtside; omega
          rw [h3, hs1]
          show (s.channels.set start (popChannel s.buffer_size ch0 num)).getD start default = _
          rw [getD_set_self _ _ _ _ hstart_lt, hch0]
        · have h3 : s'.channels.getD i default =
              popChannel s1.buffer_size (s1.channels.getD i default) num := by
            apply hinside i (by omega) h2
          rw [h3, hgetne i (by omega)]

/-- Claim C4, amended: `pop_data_all_channels(count)` (count ≥ 1, on a buffer
whose channel ids match their positions, as every constructed buffer does)
fails with `InsufficientData` when any channel of the buffer has fewer than
`count` unconsumed samples — but the failure is NOT atomic: the check runs
per channel inside the removal loop, so every channel earlier in the array
than the first deficient one has already had `count` samples removed when the
exception escapes; the deficient channel and all later ones are untouched.
When every channel holds at least `count` samples the call succeeds and
removes `count` samples from every channel. -/
theorem C4_amended (s : DataManager) (num : Nat) (hnum : 1 ≤ num)
    (hid : ∀ i, i < s.channels.length → (s.channels.getD i default).id = i) :
    ((∀ i, i < s.channels.length → num ≤ unconsumed (s.channels.getD i default)) →
      ∃ out, (pop_data_all_channels s num).2 = .ok out ∧
        out.length = s.channels.length ∧
        (pop_data_all_channels s num).1.channels.length = s.channels.length ∧
        (∀ i, i < s.channels.length →
          unconsumed ((pop_data_all_channels s num).1.channels.getD i default) =
            unconsumed (s.channels.getD i default) - num)) ∧
    (∀ k, k < s.channels.length →
      unconsumed (s.channels.getD k default) < num →
      (∀ j, j < k → num ≤ unconsumed (s.channels.getD j default)) →
      ∃ msg, (pop_data_all_channels s num).2 = .error msg ∧
        (pop_data_all_channels s num).1.channels.length = s.channels.length ∧
        (∀ i, k ≤ i → (pop_data_all_channels s num).1.channels.getD i default =
          s.channels.getD i default) ∧
        (∀ i, i < k →
          ((pop_data_all_channels s num).1.channels.getD i default).head_sample_number =
            (s.channels.getD i default).head_sample_number + num)) := by
  have hnz : num ≠ 0 := by omega
  constructor
  · intro hall
    obtain ⟨s', out, heq, hout, hlen', hbuf', houtside, hinside⟩ :=
      popAllGo_ok num hnz s.channels.length 0 s [] (by omega)
        (fun i h1 h2 => hid i (by omega)) (fun i h1 h2 => hall i (by omega))
    have hmain : pop_data_all_channels s num =
        (update_lowest_tail_index s', .ok out) := by
      rw [pop_data_all_channels, if_neg hnz, List.range_eq_range']
      exact heq
    refine ⟨out, by rw [hmain], by simpa using hout, by rw [hmain]; simpa using hlen', ?_⟩
    intro i hi
    rw [hmain]
    show unconsumed ((update_lowest_tail_index s').channels.getD i default) = _
    rw [update_lowest_tail_index_channels, hinside i (by omega) (by omega)]
    unfold unconsumed popChannel
    simp
    omega
  · intro k hk hdef hbefore
    obtain ⟨s', msg, heq, hlen', houtside, hinside⟩ :=
      popAllGo_fail num hnz s.channels.length 0 s [] k (by omega) (by omega) (by omega)
        (fun i h1 h2 => hid i (by omega)) (fun i h1 h2 => hbefore i h2) hdef
    have hmain : pop_data_all_channels s num = (s', .error msg) := by
      rw [pop_data_all_channels, if_neg hnz, List.range_eq_range']
      exact heq
    refine ⟨msg, by rw [hmain], by rw [hmain]; exact hlen', ?_, ?_⟩
    · intro i hi
      rw [hmain]
      exact houtside i (Or.inr hi)
    · intro i hi
      rw [hmain]
      show (s'.channels.getD i default).head_sample_number = _
      rw [hinside i (by omega) hi]
      rfl

/-- Claim C4 (amended), witnessed: popping 100 samples from `c4state`
(300 and 100 unconsumed) succeeds on both channels and removes 100 from each. -/
theorem C4_amended_witness :
    ∃ out, (pop_data_all_channels c4state 100).2 = .ok out ∧
      out.length = c4state.channels.length ∧
      (pop_data_all_channels c4state 100).1.channels.length = c4state.channels.length ∧
      (∀ i, i < c4state.channels.length →
        unconsumed ((pop_data_all_channels c4state 100).1.channels.getD i default) =
          unconsumed (c4state.channels.getD i default) - 100) :=
  (C4_amended c4state 100 (by norm_num)
      (by set_option maxRecDepth 10000 in decide)).1
    (by set_option maxRecDepth 10000 in decide)

/-- `update_lowest_tail_index` does not touch the discovered set. -/
@[simp]
theorem update_lowest_tail_index_discovered (s : DataManager) :
    (update_lowest_tail_index s).discovered_channels = s.discovered_channels := rfl

/-- Length of the expanded channel array. -/
theorem extendChannels_length (chs : List Channel) (r : Nat) :
    (extendChannels chs r).length = chs.length + (r - chs.length) := by
  simp [extendChannels]

/-- `add_or_expand_channel` never shrinks the channel array, and when it
discovers a new id the array covers that id. -/
theorem addOrExpand_channels_length (s : DataManager) (cid : Nat) (nm : Option String) :
    (add_or_expand_channel s cid nm).2.channels.length =
      if s.discovered_channels.contains cid then s.channels.length
      else max s.channels.length ((max s.max_channel_id (cid : Int) + 1).toNat) := by
  unfold add_or_expand_channel
  by_cases hc : s.discovered_channels.contains cid = true
  · rw [if_pos hc, if_pos hc]
    by_cases hm : s.channel_discovery_mode = true
    · rw [if_pos hm]
    · rw [if_neg hm]
  · rw [if_neg hc, if_neg hc]
    cases nm with
    | none =>
      show (extendChannels s.channels ((max s.max_channel_id (cid : Int) + 1).toNat)).length = _
      rw [extendChannels_length]
      omega
    | some nm =>
      dsimp only
      split
      · rw [List.length_set, extendChannels_length]
        omega
      · rw [extendChannels_length]
        omega

/-- The discovered set after `add_or_expand_channel`. -/
theorem addOrExpand_discovered (s : DataManager) (cid : Nat) (nm : Option String) :
    (add_or_expand_channel s cid nm).2.discovered_channels =
      if s.discovered_channels.contains cid then s.discovered_channels
      else s.discovered_channels ++ [cid] := by
  unfold add_or_expand_channel
  by_cases hc : s.discovered_channels.contains cid = true
  · rw [if_pos hc, if_pos hc]
    by_cases hm : s.channel_discovery_mode = true
    · rw [if_pos hm]
    · rw [if_neg hm]
  · rw [if_neg hc, if_neg hc]

/-- Shape inversion for a successful `push_data`. -/
theorem push_data_ok_inv (s : DataManager) (cid : Nat) (d : List ℚ) (s' : DataManager)
    (h : push_data s cid d = .ok s') :
    s'.channels.length = s.channels.length ∧
    s'.discovered_channels = s.discovered_channels := by
  by_cases h1 : cid < s.channels.length
  · by_cases h2 : s.buffer_size < d.length
    · simp [push_data, h1, h2] at h
    · simp only [push_data, h1, h2, if_true, if_false] at h
      cases h
      exact ⟨by simp, by simp⟩
  · simp [push_data, h1] at h

/-- Shape inversion for a successful `pop_data`. -/
theorem pop_data_ok_inv (s : DataManager) (cid n : Nat) (s' : DataManager) (p : List ℚ)
    (h : pop_data s cid n = .ok (s', p)) :
    s'.channels.length = s.channels.length ∧
    s'.discovered_channels = s.discovered_channels := by
  by_cases h1 : cid < s.channels.length
  · by_cases h2 : n = 0 ∨ (s.channels.getD cid default).tail_sample_number -
        (s.channels.getD cid default).head_sample_number < n
    · simp only [pop_data] at h
      rw [if_pos h1, if_pos h2] at h
      cases h
    · simp only [pop_data] at h
      rw [if_pos h1, if_neg h2] at h
      cases h
      exact ⟨by simp, by simp⟩
  · simp [pop_data, h1] at h

/-- The `pop_data_all_channels` loop preserves the channel count and the
discovered set, on every path. -/
theorem popAllGo_len_disc (num : Nat) :
    ∀ (ids : List Nat) (s : DataManager) (acc : List (List ℚ)),
      (popAllGo num s ids acc).1.channels.length = s.channels.length ∧
      (popAllGo num s ids acc).1.discovered_channels = s.discovered_channels := by
  intro ids
  induction ids with
  | nil => intro s acc; constructor <;> simp [popAllGo]
  | cons i rest ih =>
    intro s acc
    rw [popAllGo]
    split
    · exact ⟨rfl, rfl⟩
    · rcases hpd : pop_data s (s.channels.getD i default).id num with e | ⟨s1, p⟩
      · simp [hpd]
      · simp only [hpd]
        obtain ⟨hl, hd⟩ := pop_data_ok_inv _ _ _ _ _ hpd
        obtain ⟨hl2, hd2⟩ := ih s1 (p :: acc)
        exact ⟨hl2.trans hl, hd2.trans hd⟩

/-- `add_or_expand_channel` preserves the discovered-ids-are-valid-indices
invariant. -/
theorem InvD_addOrExpand (s : DataManager) (cid : Nat) (nm : Option String)
    (h : InvD s) : InvD (add_or_expand_channel s cid nm).2 := by
  intro id hid
  rw [addOrExpand_discovered] at hid
  rw [addOrExpand_channels_length]
  by_cases hc : s.discovered_channels.contains cid = true
  · rw [if_pos hc] at hid ⊢
    exact h id hid
  · rw [if_neg hc] at hid ⊢
    rcases List.mem_append.mp hid with hmem | hmem
    · exact lt_of_lt_of_le (h id hmem) (Nat.le_max_left _ _)
    · have hidc : id = cid := by simpa using hmem
      subst hidc
      have h2 : id + 1 ≤ ((max s.max_channel_id (id : Int)) + 1).toNat := by
        have h3 := le_max_right s.max_channel_id (id : Int)
        omega
      have h4 := Nat.le_max_right s.channels.length
        ((max s.max_channel_id (id : Int)) + 1).toNat
      omega

/-- Claim C10, amended: the invariant "every discovered channel id is a valid
index into the channel array" is preserved by `add_or_expand_channel`,
successful `push_data`, `pop_data_all_channels` (on every path) and
`reinit_for_new_setup`, and under it `push_data`/`pop_data` on a discovered id
never take the invalid-channel-ID branch.  `init_empty_buffer`, however, only
(re-)establishes the invariant when its `num_channels` argument exceeds every
discovered id — as at construction and inside `reinit_for_new_setup`, its only
call sites — and can break it otherwise. -/
theorem C10_amended :
    (∀ s cid nm, InvD s → InvD (add_or_expand_channel s cid nm).2) ∧
    (∀ s cid d s', InvD s → push_data s cid d = .ok s' → InvD s') ∧
    (∀ s n, InvD s → InvD (pop_data_all_channels s n).1) ∧
    (∀ s, InvD s → InvD (reinit_for_new_setup s).2) ∧
    (∀ s nc ns s', init_empty_buffer s nc ns = .ok s' →
      (∀ id ∈ s.discovered_channels, id < nc) → InvD s') ∧
    (∀ s cid d, InvD s → cid ∈ s.discovered_channels →
      errMsg (push_data s cid d) ≠ "Invalid channel ID.") ∧
    (∀ s cid n, InvD s → cid ∈ s.discovered_channels →
      errMsg (pop_data s cid n) ≠ "Invalid channel ID.") := by
  refine ⟨InvD_addOrExpand, ?_, ?_, ?_, ?_, ?_, ?_⟩
  · intro s cid d s' h hok id hid
    obtain ⟨hl, hd⟩ := push_data_ok_inv s cid d s' hok
    rw [hd] at hid
    rw [hl]
    exact h id hid
  · intro s n h id hid
    unfold pop_data_all_channels at hid ⊢
    by_cases hn : n = 0
    · rw [if_pos hn] at hid ⊢
      exact h id hid
    · rw [if_neg hn] at hid ⊢
      obtain ⟨hl, hd⟩ := popAllGo_len_disc n (List.range s.channels.length) s []
      rw [hd] at hid
      rw [hl]
      exact h id hid
  · intro s h id hid
    have hdisc : (reinit_for_new_setup s).2.discovered_channels = [] := by
      by_cases hb : s.buffer_size = 0
      · simp [reinit_for_new_setup, init_empty_buffer, hb]
      · simp [reinit_for_new_setup, init_empty_buffer, hb]
    rw [hdisc] at hid
    cases hid
  · intro s nc ns s' hok hall id hid
    by_cases h1 : nc = 0 ∨ ns = 0
    · simp only [init_empty_buffer, if_pos h1] at hok
      cases hok
    · simp only [init_empty_buffer, if_neg h1] at hok
      cases hok
      simp only [List.length_map, List.length_range]
      exact hall id hid
  · intro s cid d h hm
    have hlt : cid < s.channels.length := h cid hm
    by_cases h2 : s.buffer_size < d.length
    · simp [push_data, errMsg, hlt, h2]
    · simp [push_data, errMsg, hlt, h2]
  · intro s cid n h hm
    have hlt : cid < s.channels.length := h cid hm
    by_cases h2 : n = 0 ∨ (s.channels.getD cid default).tail_sample_number -
        (s.channels.getD cid default).head_sample_number < n
    · simp only [pop_data, errMsg]
      rw [if_pos hlt, if_pos h2]
      simp
    · simp only [pop_data, errMsg]
      rw [if_pos hlt, if_neg h2]
      simp

/-- Claim C10 fails on the code for `init_empty_buffer`: from a state with
discovered ids `{0,1,2}`, the call `init_empty_buffer(1, 1)` shrinks the
channel array to a single entry while the discovered set is untouched, so the
discovered id 2 now exceeds the array and `push_data`/`pop_data` on it take
the invalid-channel-ID branch. -/
theorem C10_counterexample :
    InvD triState ∧
    errMsg (init_empty_buffer triState 1 1) = "" ∧
    2 ∈ shrunkState.discovered_channels ∧
    ¬ 2 < shrunkState.channels.length ∧
    errMsg (push_data shrunkState 2 [0]) = "Invalid channel ID." ∧
    errMsg (pop_data shrunkState 2 1) = "Invalid channel ID." := by
  refine ⟨?_, ?_, ?_, ?_, ?_, ?_⟩ <;> first
    | exact fun id hid => by revert hid; revert id; decide
    | decide

/-- Claim C10 (amended), witnessed: the invariant holds at the bootstrap state
and is preserved by discovering a fresh channel id there. -/
theorem C10_amended_witness :
    InvD dmBoot ∧ InvD (add_or_expand_channel dmBoot 5 none).2 :=
  ⟨fun id hid => by revert hid; revert id; decide,
   C10_amended.1 dmBoot 5 none (fun id hid => by revert hid; revert id; decide)⟩

/-- Claim C5: on any polling tick where a heartbeat reply is pending and the
heartbeat timeout has elapsed (measured, as in the source, against
`last_heartbeat_timestamp`, which the retry path nudges forward by 1 s), the
tick publishes `NOT_RESPONDING` first; when the not-responding timeout since
the last successful reply has NOT also elapsed, that is all that happens; when
it HAS, the tick additionally publishes `RECONNECTING` and rebuilds the socket
pair exactly once (`CONNECTING`, `CONNECTED`), clears the pending-reply flag
and resets the last-reply clock to now — so the immediately following tick can
never rebuild again, and more generally no tick within the not-responding
window of the last reply ever rebuilds. -/
theorem C5_heartbeat_fsm (s : HeartbeatState) (t : ℚ)
    (hw : s.socket_waits_reply = true)
    (hto : heartbeat_timeout_duration < t - s.last_heartbeat_timestamp) :
    (handle_heartbeat_timeout s t).2.head? = some ConnectionStatus.not_responding ∧
    (¬ not_responding_timeout_duration < t - s.last_reply_timestamp →
      handle_heartbeat_timeout s t =
        ({ s with
           connection_status := ConnectionStatus.not_responding
           last_heartbeat_timestamp := s.last_heartbeat_timestamp + 1 },
         [ConnectionStatus.not_responding])) ∧
    (not_responding_timeout_duration < t - s.last_reply_timestamp →
      (handle_heartbeat_timeout s t).2 =
        [ConnectionStatus.not_responding, ConnectionStatus.reconnecting,
         ConnectionStatus.connecting, ConnectionStatus.connected] ∧
      (handle_heartbeat_timeout s t).1.reconnect_count = s.reconnect_count + 1 ∧
      (handle_heartbeat_timeout s t).1.connection_status = ConnectionStatus.connected ∧
      (handle_heartbeat_timeout s t).1.socket_waits_reply = false ∧
      (handle_heartbeat_timeout s t).1.last_reply_timestamp = t ∧
      (∀ t' : ℚ, (handle_heartbeat_timeout (handle_heartbeat_timeout s t).1 t').1.reconnect_count =
        (handle_heartbeat_timeout s t).1.reconnect_count)) ∧
    (∀ (u : HeartbeatState) (t'' : ℚ),
      ¬ not_responding_timeout_duration < t'' - u.last_reply_timestamp →
      (handle_heartbeat_timeout u t'').1.reconnect_count = u.reconnect_count) := by
  have hnoreco : ∀ (u : HeartbeatState) (t'' : ℚ),
      ¬ not_responding_timeout_duration < t'' - u.last_reply_timestamp →
      (handle_heartbeat_timeout u t'').1.reconnect_count = u.reconnect_count := by
    intro u t'' hnr
    unfold handle_heartbeat_timeout
    by_cases h1 : heartbeat_timeout_duration < t'' - u.last_heartbeat_timestamp
    · rw [if_pos h1]
      by_cases h2 : u.socket_waits_reply = true
      · rw [if_pos h2, if_neg (by exact hnr)]
      · rw [if_neg h2]
        rfl
    · rw [if_neg h1]
  have hnowaits : ∀ (u : HeartbeatState) (t'' : ℚ), u.socket_waits_reply = false →
      (handle_heartbeat_timeout u t'').1.reconnect_count = u.reconnect_count := by
    intro u t'' hwf
    unfold handle_heartbeat_timeout
    by_cases h1 : heartbeat_timeout_duration < t'' - u.last_heartbeat_timestamp
    · rw [if_pos h1, if_neg (by rw [hwf]; exact Bool.false_ne_true)]
      rfl
    · rw [if_neg h1]
  by_cases hnr : not_responding_timeout_duration < t - s.last_reply_timestamp
  · have hmain : handle_heartbeat_timeout s t =
        ({ s with
           connection_status := ConnectionStatus.connected
           last_heartbeat_timestamp := s.last_heartbeat_timestamp + 1
           last_reply_timestamp := t
           socket_waits_reply := false
           reconnect_count := s.reconnect_count + 1 },
         [ConnectionStatus.not_responding, ConnectionStatus.reconnecting,
          ConnectionStatus.connecting, ConnectionStatus.connected]) := by
      unfold handle_heartbeat_timeout zmq_reconnect init_sockets
      rw [if_pos hto, if_pos hw, if_pos (by exact hnr)]
    refine ⟨by rw [hmain]; rfl, fun h => absurd hnr h, fun _ => ?_, hnoreco⟩
    refine ⟨by rw [hmain], by rw [hmain], by rw [hmain], by rw [hmain], by rw [hmain], ?_⟩
    intro t'
    apply hnowaits
    rw [hmain]
  · have hmain : handle_heartbeat_timeout s t =
        ({ s with
           connection_status := ConnectionStatus.not_responding
           last_heartbeat_timestamp := s.last_heartbeat_timestamp + 1 },
         [ConnectionStatus.not_responding]) := by
      unfold handle_heartbeat_timeout
      rw [if_pos hto, if_pos hw, if_neg (by exact hnr)]
    exact ⟨by rw [hmain]; rfl, fun _ => hmain, fun h => absurd h hnr, hnoreco⟩

/-- Claim C5, witnessed at `hbEx` (reply pending since t = 0, last successful
reply at t = −9) on a tick at t = 3: the full not-responding / reconnect
cascade fires and the reconnect counter increments to exactly 1. -/
theorem C5_heartbeat_fsm_witness :
    hbEx.socket_waits_reply = true ∧
    heartbeat_timeout_duration < 3 - hbEx.last_heartbeat_timestamp ∧
    not_responding_timeout_duration < 3 - hbEx.last_reply_timestamp ∧
    (handle_heartbeat_timeout hbEx 3).2.head? = some ConnectionStatus.not_responding ∧
    (handle_heartbeat_timeout hbEx 3).1.reconnect_count = hbEx.reconnect_count + 1 := by
  have h1 : hbEx.socket_waits_reply = true := rfl
  have h2 : heartbeat_timeout_duration < 3 - hbEx.last_heartbeat_timestamp := by
    norm_num [hbEx, heartbeat_timeout_duration]
  have h3 : not_responding_timeout_duration < 3 - hbEx.last_reply_timestamp := by
    norm_num [hbEx, not_responding_timeout_duration]
  obtain ⟨ha, _, hc, _⟩ := C5_heartbeat_fsm hbEx 3 h1 h2
  exact ⟨h1, h2, h3, ha, (hc h3).2.1⟩

/-- The batching sample loop just accumulates while the buffer stays below
the batch size. -/
theorem bbLoop_no_batch :
    ∀ (samples : List (List ℚ)) (s : BatchingBuffer) (now : ℚ),
      s.sample_buffer.length + samples.length < s.batch_size →
      bbLoop now s samples = ({ s with sample_buffer := s.sample_buffer ++ samples }, []) := by
  intro samples
  induction samples with
  | nil =>
    intro s now h
    simp [bbLoop]
  | cons x rest ih =>
    intro s now h
    simp only [List.length_cons] at h
    rw [bbLoop]
    have hlt : ¬ s.batch_size ≤ (s.sample_buffer ++ [x]).length := by
      simp only [List.length_append, List.length_cons, List.length_nil]
      omega
    simp only [bbAddOne]
    rw [if_neg hlt]
    rw [ih { s with sample_buffer := s.sample_buffer ++ [x] } now
      (by simp only [List.length_append, List.length_cons, List.length_nil]; omega)]
    simp

/-- Claim C6: with `batch_size = 100`, after exactly 10 samples arrive (and no
flush has happened yet), once `batch_timeout_ms` has elapsed since the last
emitted batch the next `add_samples` call — carrying NO further input — flushes
exactly one batch of size 10 holding precisely those pending samples, and
empties the pending buffer. -/
theorem C6_batch_timeout_flush (nc : Nat) (samples : List (List ℚ)) (tm t0 t1 t2 : ℚ)
    (hlen : samples.length = 10)
    (h1 : (t1 - t0) * 1000 < tm)
    (h2 : tm ≤ (t2 - t0) * 1000) :
    (bbAddSamples (mkBatchingBuffer nc 100 tm t0) samples t1).2 = [] ∧
    (bbAddSamples (mkBatchingBuffer nc 100 tm t0) samples t1).1.sample_buffer = samples ∧
    (bbAddSamples (bbAddSamples (mkBatchingBuffer nc 100 tm t0) samples t1).1 [] t2).2 =
      [create_batch_dict nc samples] ∧
    (create_batch_dict nc samples).chunk_size = 10 ∧
    (bbAddSamples (bbAddSamples (mkBatchingBuffer nc 100 tm t0) samples t1).1 [] t2).1.sample_buffer
      = [] := by
  have hne : samples ≠ [] := by
    intro he
    rw [he] at hlen
    simp at hlen
  have hstep1 : bbLoop t1 (mkBatchingBuffer nc 100 tm t0) samples =
      ({ mkBatchingBuffer nc 100 tm t0 with sample_buffer := samples }, []) := by
    have := bbLoop_no_batch samples (mkBatchingBuffer nc 100 tm t0) t1
      (by simp [mkBatchingBuffer, hlen])
    simpa [mkBatchingBuffer] using this
  have hs1 : bbAddSamples (mkBatchingBuffer nc 100 tm t0) samples t1 =
      ({ mkBatchingBuffer nc 100 tm t0 with sample_buffer := samples }, []) := by
    unfold bbAddSamples
    rw [hstep1]
    rw [if_neg ?hcond]
    case hcond =>
      rintro ⟨-, hb⟩
      exact absurd (lt_of_lt_of_le h1 hb) (lt_irrefl _)
  have hs2 : bbAddSamples { mkBatchingBuffer nc 100 tm t0 with sample_buffer := samples } [] t2 =
      ({ mkBatchingBuffer nc 100 tm t0 with
          sample_buffer := ([] : List (List ℚ))
          last_batch_time := t2 },
       [create_batch_dict nc samples]) := by
    unfold bbAddSamples
    rw [bbLoop]
    rw [if_pos ⟨by simp [hne], by exact h2⟩]
    rfl
  refine ⟨by rw [hs1], by rw [hs1], by rw [hs1, hs2], by simp [create_batch_dict, hlen],
    by rw [hs1, hs2]⟩

/-- Claim C6, witnessed with 10 two-channel samples, a 10-second timeout,
arrival at t = 1 and a flushing (empty) call at t = 11. -/
theorem C6_batch_timeout_flush_witness :
    (List.replicate 10 ([1, 2] : List ℚ)).length = 10 ∧
    ((1 : ℚ) - 0) * 1000 < 10000 ∧
    (10000 : ℚ) ≤ ((11 : ℚ) - 0) * 1000 ∧
    (bbAddSamples (bbAddSamples (mkBatchingBuffer 2 100 10000 0)
        (List.replicate 10 ([1, 2] : List ℚ)) 1).1 [] 11).2 =
      [create_batch_dict 2 (List.replicate 10 ([1, 2] : List ℚ))] :=
  ⟨by decide, by norm_num, by norm_num,
   (C6_batch_timeout_flush 2 (List.replicate 10 ([1, 2] : List ℚ)) 10000 0 1 11
     (by decide) (by norm_num) (by norm_num)).2.2.1⟩

/-- `writeRows` past the head of a list. -/
theorem writeRows_cons_succ :
    ∀ (xs : List (List ℚ)) (y : List ℚ) (ys : List (List ℚ)) (p : Nat),
      writeRows (y :: ys) (p + 1) xs = y :: writeRows ys p xs := by
  intro xs
  induction xs with
  | nil => intro y ys p; rfl
  | cons x rest ih =>
    intro y ys p
    show writeRows ((y :: ys).set (p + 1) x) (p + 2) rest = _
    rw [List.set_cons_succ]
    rw [ih y (ys.set p x) (p + 1)]
    rfl

/-- Writing a full window over a buffer of the same length replaces it. -/
theorem writeRows_full :
    ∀ (xs buf : List (List ℚ)), buf.length = xs.length → writeRows buf 0 xs = xs := by
  intro xs
  induction xs with
  | nil =>
    intro buf h
    cases buf with
    | nil => rfl
    | cons b bs => simp at h
  | cons x rest ih =>
    intro buf h
    cases buf with
    | nil => simp at h
    | cons b bs =>
      show writeRows ((b :: bs).set 0 x) 1 rest = x :: rest
      rw [List.set_cons_zero]
      rw [writeRows_cons_succ rest x bs 0]
      rw [ih bs (by simpa using h)]

/-- Feeding exactly one full window (starting at position 0) emits exactly one
reduced sample, computed over the freshly written rows, and resets the
position to 0. -/
theorem dsAddSamples_fill :
    ∀ (xs : List (List ℚ)) (s : DownsamplingBuffer),
      xs ≠ [] →
      s.buffer_position + xs.length = s.downsampling_factor →
      dsAddSamples s xs =
        ({ s with
           sample_buffer := writeRows s.sample_buffer s.buffer_position xs
           buffer_position := 0
           samples_accumulated := s.samples_accumulated + xs.length },
         [downsampleReduce s (writeRows s.sample_buffer s.buffer_position xs)]) := by
  intro xs
  induction xs with
  | nil => intro s hne hfull; exact absurd rfl hne
  | cons x rest ih =>
    intro s hne hfull
    cases rest with
    | nil =>
      simp only [List.length_cons, List.length_nil, Nat.zero_add] at hfull
      rw [dsAddSamples, dsAddSamples]
      simp only [dsAddOne]
      rw [if_pos (by omega)]
      simp only [List.length_cons, List.length_nil]
      rfl
    | cons y rest2 =>
      simp only [List.length_cons] at hfull
      rw [dsAddSamples]
      simp only [dsAddOne]
      rw [if_neg (by omega)]
      rw [ih { s with
               sample_buffer := s.sample_buffer.set s.buffer_position x
               buffer_position := s.buffer_position + 1
               samples_accumulated := s.samples_accumulated + 1 }
           (by simp) (by simp only [List.length_cons]; omega)]
      simp only [List.length_cons]
      have hacc : s.samples_accumulated + 1 + (rest2.length + 1) =
          s.samples_accumulated + (rest2.length + 1 + 1) := by omega
      rw [hacc]
      rfl

/-- Fewer samples than the remaining window space never produce output. -/
theorem dsAddSamples_partial :
    ∀ (xs : List (List ℚ)) (s : DownsamplingBuffer),
      s.buffer_position + xs.length < s.downsampling_factor →
      (dsAddSamples s xs).2 = [] := by
  intro xs
  induction xs with
  | nil => intro s h; rfl
  | cons x rest ih =>
    intro s h
    simp only [List.length_cons] at h
    rw [dsAddSamples]
    simp only [dsAddOne]
    rw [if_neg (by omega)]
    rw [List.nil_append]
    exact ih _ (by simp only [List.length_cons]; omega)

/-- `List.getD` on a replicate, within bounds. -/
theorem getD_replicate (n c : Nat) (a : ℚ) (h : c < n) :
    (List.replicate n a).getD c 0 = a := by
  rw [List.getD_eq_getElem?_getD, List.getElem?_replicate]
  simp [h]

/-- Exact-arithmetic mean of 30 equal rows. -/
theorem npMeanAxis0_replicate (nc : Nat) (v : ℚ) :
    npMeanAxis0 (List.replicate 30 (List.replicate nc v)) 30 nc = List.replicate nc v := by
  unfold npMeanAxis0
  push_cast [-List.reduceReplicate]
  have hcong : ∀ c ∈ List.range nc,
      ((List.replicate 30 (List.replicate nc v)).map (fun r => r.getD c 0)).sum / (30 : ℚ)
        = v := by
    intro c hc
    have hcn : c < nc := List.mem_range.mp hc
    rw [List.map_replicate, getD_replicate nc c v hcn, List.sum_replicate, nsmul_eq_mul]
    norm_num
  rw [List.map_congr_left hcong, List.map_const']
  simp

/-- Claim C9: with factor 30, feeding one full window per channel from a fresh
downsampling buffer emits exactly one reduced sample — equal to the common
value `v` under `average` when all 30 inputs are `v`, and equal to the 30th
(most recent) input row under `decimate` for arbitrary inputs; a partial
window (fewer than 30 samples) produces no output, and `reset` discards it
(position and accumulator return to 0). -/
theorem C9_downsampling (nc : Nat) (v : ℚ) (xs ys : List (List ℚ))
    (hxs : xs.length = 30) (hys : ys.length < 30) :
    (dsAddSamples (mkDownsamplingBuffer nc 30 "average")
        (List.replicate 30 (List.replicate nc v))).2 = [List.replicate nc v] ∧
    (dsAddSamples (mkDownsamplingBuffer nc 30 "decimate") xs).2 = [xs.getLastD []] ∧
    (dsAddSamples (mkDownsamplingBuffer nc 30 "average") ys).2 = [] ∧
    (dsReset (dsAddSamples (mkDownsamplingBuffer nc 30 "average") ys).1).buffer_position = 0 ∧
    (dsReset (dsAddSamples (mkDownsamplingBuffer nc 30 "average") ys).1).samples_accumulated
      = 0 := by
  refine ⟨?_, ?_, ?_, rfl, rfl⟩
  · rw [dsAddSamples_fill _ _ (by simp) (by simp [mkDownsamplingBuffer])]
    have hwr : writeRows (mkDownsamplingBuffer nc 30 "average").sample_buffer
        (mkDownsamplingBuffer nc 30 "average").buffer_position
        (List.replicate 30 (List.replicate nc v)) =
        List.replicate 30 (List.replicate nc v) := by
      show writeRows (List.replicate 30 (List.replicate nc 0)) 0 _ = _
      exact writeRows_full _ _ (by simp)
    rw [hwr]
    show [downsampleReduce (mkDownsamplingBuffer nc 30 "average")
      (List.replicate 30 (List.replicate nc v))] = _
    rw [show downsampleReduce (mkDownsamplingBuffer nc 30 "average")
        (List.replicate 30 (List.replicate nc v)) =
        npMeanAxis0 (List.replicate 30 (List.replicate nc v)) 30 nc from by
      simp [downsampleReduce, mkDownsamplingBuffer]]
    rw [npMeanAxis0_replicate]
  · have hne : xs ≠ [] := by
      intro h
      rw [h] at hxs
      simp at hxs
    rw [dsAddSamples_fill _ _ hne (by simp [mkDownsamplingBuffer, hxs])]
    have hwr : writeRows (mkDownsamplingBuffer nc 30 "decimate").sample_buffer
        (mkDownsamplingBuffer nc 30 "decimate").buffer_position xs = xs := by
      show writeRows (List.replicate 30 (List.replicate nc 0)) 0 _ = _
      exact writeRows_full _ _ (by simp [hxs])
    rw [hwr]
    show [downsampleReduce (mkDownsamplingBuffer nc 30 "decimate") xs] = _
    simp [downsampleReduce, mkDownsamplingBuffer]
  · exact dsAddSamples_partial ys _ (by simp [mkDownsamplingBuffer]; omega)

/-- Claim C9, witnessed with one channel, `v = 7`, a 30-row decimate input
ending in `[9]`, and a 3-row partial window. -/
theorem C9_downsampling_witness :
    (List.replicate 29 ([0] : List ℚ) ++ [[9]]).length = 30 ∧
    ([[1], [2], [3]] : List (List ℚ)).length < 30 ∧
    (dsAddSamples (mkDownsamplingBuffer 1 30 "average")
        (List.replicate 30 (List.replicate 1 (7 : ℚ)))).2 = [List.replicate 1 (7 : ℚ)] ∧
    (dsAddSamples (mkDownsamplingBuffer 1 30 "decimate")
        (List.replicate 29 ([0] : List ℚ) ++ [[9]])).2 =
      [(List.replicate 29 ([0] : List ℚ) ++ [[9]]).getLastD []] ∧
    (dsAddSamples (mkDownsamplingBuffer 1 30 "average") [[1], [2], [3]]).2 = [] := by
  have h := C9_downsampling 1 7 (List.replicate 29 ([0] : List ℚ) ++ [[9]])
    ([[1], [2], [3]] : List (List ℚ)) (by decide) (by decide)
  exact ⟨by decide, by decide, h.1, h.2.1, h.2.2.1⟩

/-- `extendChannels` leaves existing entries alone. -/
theorem extendChannels_getD_lt (chs : List Channel) (r i : Nat) (hi : i < chs.length) :
    (extendChannels chs r).getD i default = chs.getD i default := by
  unfold extendChannels
  rw [List.getD_eq_getElem?_getD, List.getD_eq_getElem?_getD, List.getElem?_append, if_pos hi]

/-- `extendChannels` appends fresh channels whose id equals their position. -/
theorem extendChannels_getD_ge (chs : List Channel) (r i : Nat)
    (h1 : chs.length ≤ i) (h2 : i < chs.length + (r - chs.length)) :
    (extendChannels chs r).getD i default = freshChannel i ("CH" ++ pad3 i) := by
  unfold extendChannels
  rw [List.getD_eq_getElem?_getD, List.getElem?_append]
  rw [if_neg (by omega)]
  rw [List.getElem?_map]
  have hk : i - chs.length < r - chs.length := by omega
  have hr : (List.range' chs.length (r - chs.length))[i - chs.length]? =
      some (chs.length + (i - chs.length)) := by
    simp [List.getElem?_range', hk]
  have hi2 : chs.length + (i - chs.length) = i := by omega
  rw [hr, hi2]
  rfl

/-- `add_or_expand_channel` never changes the buffer capacity. -/
theorem addOrExpand_buffer_size (s : DataManager) (cid : Nat) (nm : Option String) :
    (add_or_expand_channel s cid nm).2.buffer_size = s.buffer_size := by
  unfold add_or_expand_channel
  by_cases hc : s.discovered_channels.contains cid = true
  · rw [if_pos hc]
    by_cases hm : s.channel_discovery_mode = true
    · rw [if_pos hm]
    · rw [if_neg hm]
  · rw [if_neg hc]

/-- On a repeat sighting, the channel array is untouched. -/
theorem addOrExpand_contains_channels (s : DataManager) (cid : Nat) (nm : Option String)
    (hc : s.discovered_channels.contains cid = true) :
    (add_or_expand_channel s cid nm).2.channels = s.channels := by
  unfold add_or_expand_channel
  rw [if_pos hc]
  by_cases hm : s.channel_discovery_mode = true
  · rw [if_pos hm]
  · rw [if_neg hm]

/-- On a first sighting, the scalar fields of every channel of the expanded
array: existing entries keep their fields, appended entries are fresh. -/
theorem addOrExpand_new_getD (s : DataManager) (cid : Nat) (nm : Option String) (i : Nat)
    (hc : ¬ s.discovered_channels.contains cid = true) :
    ((i < s.channels.length →
      ∃ lb, (add_or_expand_channel s cid nm).2.channels.getD i default =
        { s.channels.getD i default with label := lb }) ∧
     (s.channels.length ≤ i → i < (add_or_expand_channel s cid nm).2.channels.length →
      ∃ lb, (add_or_expand_channel s cid nm).2.channels.getD i default =
        { freshChannel i "" with label := lb })) := by
  have hch : ∀ j, (add_or_expand_channel s cid nm).2.channels.getD j default =
      (let ext := extendChannels s.channels ((max s.max_channel_id (cid : Int) + 1).toNat)
       match nm with
       | some n2 =>
         (if ¬ n2 = "" ∧ cid < ext.length then
            ext.set cid { ext.getD cid default with label := n2 }
          else ext).getD j default
       | none => ext.getD j default) := by
    intro j
    unfold add_or_expand_channel
    rw [if_neg hc]
    cases nm <;> rfl
  have hlen : (add_or_expand_channel s cid nm).2.channels.length =
      max s.channels.length ((max s.max_channel_id (cid : Int) + 1).toNat) := by
    rw [addOrExpand_channels_length, if_neg hc]
  have hext_len : (extendChannels s.channels ((max s.max_channel_id (cid : Int) + 1).toNat)).length
      = max s.channels.length ((max s.max_channel_id (cid : Int) + 1).toNat) := by
    rw [extendChannels_length]
    omega
  constructor
  · intro hi
    rw [hch i]
    cases nm with
    | none =>
      dsimp only
      exact ⟨(s.channels.getD i default).label,
        by rw [extendChannels_getD_lt _ _ _ hi]⟩
    | some n2 =>
      dsimp only
      split
      · by_cases hic : i = cid
        · subst hic
          refine ⟨n2, ?_⟩
          rw [getD_set_self _ _ _ _ (by rw [hext_len]; exact lt_of_lt_of_le hi (Nat.le_max_left _ _)),
            extendChannels_getD_lt _ _ _ hi]
        · exact ⟨(s.channels.getD i default).label,
            by rw [getD_set_ne _ _ _ _ _ (fun he => hic he.symm),
              extendChannels_getD_lt _ _ _ hi]⟩
      · exact ⟨(s.channels.getD i default).label,
          by rw [extendChannels_getD_lt _ _ _ hi]⟩
  · intro h1 h2
    rw [hlen] at h2
    have hfresh : (extendChannels s.channels ((max s.max_channel_id (cid : Int) + 1).toNat)).getD
        i default = freshChannel i ("CH" ++ pad3 i) := by
      apply extendChannels_getD_ge _ _ _ h1
      omega
    rw [hch i]
    cases nm with
    | none =>
      dsimp only
      exact ⟨"CH" ++ pad3 i, by rw [hfresh]; rfl⟩
    | some n2 =>
      dsimp only
      split
      · by_cases hic : i = cid
        · subst hic
          refine ⟨n2, ?_⟩
          rw [getD_set_self _ _ _ _ (by rw [hext_len]; omega), hfresh]
          rfl
        · exact ⟨"CH" ++ pad3 i,
            by rw [getD_set_ne _ _ _ _ _ (fun he => hic he.symm), hfresh]; rfl⟩
      · exact ⟨"CH" ++ pad3 i, by rw [hfresh]; rfl⟩

/-- The bootstrap state satisfies the reachability invariants. -/
theorem DMInv_boot : DMInv dmBoot :=
  ⟨rfl, by decide, by decide, by decide, by decide, by decide⟩

/-- `add_or_expand_channel` preserves the reachability invariants. -/
theorem DMInv_addOrExpand (s : DataManager) (cid : Nat) (nm : Option String)
    (h : DMInv s) : DMInv (add_or_expand_channel s cid nm).2 := by
  by_cases hc : s.discovered_channels.contains cid = true
  · have hch := addOrExpand_contains_channels s cid nm hc
    have hd : (add_or_expand_channel s cid nm).2.discovered_channels =
        s.discovered_channels := by
      rw [addOrExpand_discovered, if_pos hc]
    refine ⟨?_, ?_, ?_, ?_, ?_, ?_⟩
    · rw [addOrExpand_buffer_size]
      exact h.buf
    · rw [hd, hch]
      exact h.disc_lt
    · rw [hch]
      exact h.ids
    · rw [hch]
      exact h.head_le
    · rw [hch]
      exact h.tail_mod
    · intro _
      rw [hd]
      exact List.ne_nil_of_mem (by simpa using hc)
  · have hd : (add_or_expand_channel s cid nm).2.discovered_channels =
        s.discovered_channels ++ [cid] := by
      rw [addOrExpand_discovered, if_neg hc]
    refine ⟨?_, InvD_addOrExpand s cid nm h.disc_lt, ?_, ?_, ?_, ?_⟩
    · rw [addOrExpand_buffer_size]
      exact h.buf
    · intro i hi
      by_cases hil : i < s.channels.length
      · obtain ⟨lb, hlb⟩ := (addOrExpand_new_getD s cid nm i hc).1 hil
        rw [hlb]
        exact h.ids i hil
      · obtain ⟨lb, hlb⟩ := (addOrExpand_new_getD s cid nm i hc).2 (by omega) hi
        rw [hlb]
        rfl
    · intro i hi
      by_cases hil : i < s.channels.length
      · obtain ⟨lb, hlb⟩ := (addOrExpand_new_getD s cid nm i hc).1 hil
        rw [hlb]
        exact h.head_le i hil
      · obtain ⟨lb, hlb⟩ := (addOrExpand_new_getD s cid nm i hc).2 (by omega) hi
        rw [hlb]
        exact Nat.le_refl 0
    · intro i hi
      by_cases hil : i < s.channels.length
      · obtain ⟨lb, hlb⟩ := (addOrExpand_new_getD s cid nm i hc).1 hil
        rw [hlb]
        exact h.tail_mod i hil
      · obtain ⟨lb, hlb⟩ := (addOrExpand_new_getD s cid nm i hc).2 (by omega) hi
        rw [hlb]
        rfl
    · intro _
      rw [hd]
      simp

/-- Field-level inversion of a successful `push_data`. -/
theorem push_data_ok_fields (s : DataManager) (cid : Nat) (d : List ℚ) (s' : DataManager)
    (h : push_data s cid d = .ok s') :
    cid < s.channels.length ∧
    s'.buffer_size = s.buffer_size ∧
    s'.discovered_channels = s.discovered_channels ∧
    s'.channel_discovery_mode = s.channel_discovery_mode ∧
    s'.channels.length = s.channels.length ∧
    (∀ i, i ≠ cid → s'.channels.getD i default = s.channels.getD i default) ∧
    (s'.channels.getD cid default).id = (s.channels.getD cid default).id ∧
    (s'.channels.getD cid default).head_sample_number =
      (s.channels.getD cid default).head_sample_number ∧
    (s'.channels.getD cid default).tail_sample_number =
      (s.channels.getD cid default).tail_sample_number + d.length ∧
    (s'.channels.getD cid default).tail_index =
      ((s.channels.getD cid default).tail_index + d.length) % s.buffer_size := by
  by_cases h1 : cid < s.channels.length
  · by_cases h2 : s.buffer_size < d.length
    · simp [push_data, h1, h2] at h
    · simp only [push_data, h1, h2, if_true, if_false] at h
      cases h
      have hget : ∀ i, i ≠ cid →
          (update_lowest_tail_index { s with
            channels := s.channels.set cid
              { s.channels.getD cid default with
                data := if (s.channels.getD cid default).tail_index + d.length ≤ s.buffer_size
                  then sliceWrite (s.channels.getD cid default).data
                    (s.channels.getD cid default).tail_index d
                  else sliceWrite (sliceWrite (s.channels.getD cid default).data
                    (s.channels.getD cid default).tail_index
                    (d.take (s.buffer_size - (s.channels.getD cid default).tail_index))) 0
                    (d.drop (s.buffer_size - (s.channels.getD cid default).tail_index))
                tail_index := ((s.channels.getD cid default).tail_index + d.length) % s.buffer_size
                tail_sample_number := (s.channels.getD cid default).tail_sample_number
                  + d.length } }).channels.getD i default
          = s.channels.getD i default := by
        intro i hne
        exact getD_set_ne _ _ _ _ _ (fun he => hne he.symm)
      refine ⟨h1, rfl, rfl, rfl, by simp, hget, ?_, ?_, ?_, ?_⟩ <;>
        rw [show (update_lowest_tail_index { s with
              channels := s.channels.set cid
                { s.channels.getD cid default with
                  data := if (s.channels.getD cid default).tail_index + d.length ≤ s.buffer_size
                    then sliceWrite (s.channels.getD cid default).data
                      (s.channels.getD cid default).tail_index d
                    else sliceWrite (sliceWrite (s.channels.getD cid default).data
                      (s.channels.getD cid default).tail_index
                      (d.take (s.buffer_size - (s.channels.getD cid default).tail_index))) 0
                      (d.drop (s.buffer_size - (s.channels.getD cid default).tail_index))
                  tail_index := ((s.channels.getD cid default).tail_index + d.length) % s.buffer_size
                  tail_sample_number := (s.channels.getD cid default).tail_sample_number
                    + d.length } }).channels.getD cid default
            = { s.channels.getD cid default with
                  data := if (s.channels.getD cid default).tail_index + d.length ≤ s.buffer_size
                    then sliceWrite (s.channels.getD cid default).data
                      (s.channels.getD cid default).tail_index d
                    else sliceWrite (sliceWrite (s.channels.getD cid default).data
                      (s.channels.getD cid default).tail_index
                      (d.take (s.buffer_size - (s.channels.getD cid default).tail_index))) 0
                      (d.drop (s.buffer_size - (s.channels.getD cid default).tail_index))
                  tail_index := ((s.channels.getD cid default).tail_index + d.length) % s.buffer_size
                  tail_sample_number := (s.channels.getD cid default).tail_sample_number
                    + d.length } from getD_set_self _ _ _ _ h1]
  · simp [push_data, h1] at h

/-- Field-level inversion of a successful `pop_data`. -/
theorem pop_data_ok_fields (s : DataManager) (cid n : Nat) (s' : DataManager) (p : List ℚ)
    (h : pop_data s cid n = .ok (s', p)) :
    cid < s.channels.length ∧
    n ≠ 0 ∧
    n ≤ unconsumed (s.channels.getD cid default) ∧
    s'.buffer_size = s.buffer_size ∧
    s'.discovered_channels = s.discovered_channels ∧
    s'.channel_discovery_mode = s.channel_discovery_mode ∧
    s'.channels.length = s.channels.length ∧
    (∀ i, i ≠ cid → s'.channels.getD i default = s.channels.getD i default) ∧
    s'.channels.getD cid default = popChannel s.buffer_size (s.channels.getD cid default) n := by
  by_cases h1 : cid < s.channels.length
  · by_cases h2 : n = 0 ∨ (s.channels.getD cid default).tail_sample_number -
        (s.channels.getD cid default).head_sample_number < n
    · simp only [pop_data] at h
      rw [if_pos h1, if_pos h2] at h
      cases h
    · simp only [pop_data] at h
      rw [if_pos h1, if_neg h2] at h
      cases h
      obtain ⟨hn0, hcnt⟩ := not_or.mp h2
      refine ⟨h1, hn0, by unfold unconsumed; omega, rfl, rfl, rfl, by simp, ?_,
        getD_set_self _ _ _ _ h1⟩
      intro i hne
      exact getD_set_ne _ _ _ _ _ (fun he => hne he.symm)
  · simp [pop_data, h1] at h

/-- A successful `push_data` preserves the reachability invariants. -/
theorem DMInv_push (s : DataManager) (cid : Nat) (d : List ℚ) (s' : DataManager)
    (h : DMInv s) (hok : push_data s cid d = .ok s') : DMInv s' := by
  obtain ⟨hcid, hbuf, hd, hm, hlen, hother, hid, hhead, htsn, hti⟩ :=
    push_data_ok_fields s cid d s' hok
  refine ⟨by rw [hbuf]; exact h.buf, ?_, ?_, ?_, ?_, ?_⟩
  · intro id hmem
    rw [hd] at hmem
    rw [hlen]
    exact h.disc_lt id hmem
  · intro i hi
    rw [hlen] at hi
    by_cases hic : i = cid
    · subst hic
      rw [hid]
      exact h.ids i hi
    · rw [hother i hic]
      exact h.ids i hi
  · intro i hi
    rw [hlen] at hi
    by_cases hic : i = cid
    · subst hic
      rw [hhead, htsn]
      have := h.head_le i hi
      omega
    · rw [hother i hic]
      exact h.head_le i hi
  · intro i hi
    rw [hlen] at hi
    by_cases hic : i = cid
    · subst hic
      unfold unconsumed
      rw [hhead, htsn, hti, h.buf]
      have h3 := h.tail_mod i hi
      have h4 := h.head_le i hi
      unfold unconsumed at h3
      omega
    · rw [hother i hic]
      exact h.tail_mod i hi
  · intro hmode
    rw [hm] at hmode
    rw [hd]
    exact h.mode_disc hmode

/-- A successful `pop_data` preserves the reachability invariants. -/
theorem DMInv_pop_data (s : DataManager) (cid n : Nat) (s' : DataManager) (p : List ℚ)
    (h : DMInv s) (hok : pop_data s cid n = .ok (s', p)) : DMInv s' := by
  obtain ⟨hcid, hn0, hcnt, hbuf, hd, hm, hlen, hother, hch⟩ :=
    pop_data_ok_fields s cid n s' p hok
  refine ⟨by rw [hbuf]; exact h.buf, ?_, ?_, ?_, ?_, ?_⟩
  · intro id hmem
    rw [hd] at hmem
    rw [hlen]
    exact h.disc_lt id hmem
  · intro i hi
    rw [hlen] at hi
    by_cases hic : i = cid
    · subst hic
      rw [hch]
      exact h.ids i hi
    · rw [hother i hic]
      exact h.ids i hi
  · intro i hi
    rw [hlen] at hi
    by_cases hic : i = cid
    · subst hic
      rw [hch]
      unfold popChannel
      unfold unconsumed at hcnt
      have := h.head_le i hi
      simp only
      omega
    · rw [hother i hic]
      exact h.head_le i hi
  · intro i hi
    rw [hlen] at hi
    by_cases hic : i = cid
    · subst hic
      rw [hch]
      unfold popChannel unconsumed
      unfold unconsumed at hcnt
      have h3 := h.tail_mod i hi
      have h4 := h.head_le i hi
      unfold unconsumed at h3
      rw [h.buf]
      simp only
      rw [h3]
      omega
    · rw [hother i hic]
      exact h.tail_mod i hi
  · intro hmode
    rw [hm] at hmode
    rw [hd]
    exact h.mode_disc hmode

/-- The `pop_data_all_channels` loop preserves the reachability invariants on
every path. -/
theorem DMInv_popAllGo (num : Nat) :
    ∀ (ids : List Nat) (s : DataManager) (acc : List (List ℚ)),
      DMInv s → DMInv (popAllGo num s ids acc).1 := by
  intro ids
  induction ids with
  | nil =>
    intro s acc h
    exact ⟨h.buf, h.disc_lt, h.ids, h.head_le, h.tail_mod, h.mode_disc⟩
  | cons i rest ih =>
    intro s acc h
    rw [popAllGo]
    split
    · exact h
    · rcases hpd : pop_data s ((s.channels.getD i default).id) num with e | ⟨s1, p⟩
      · simp only [hpd]
        exact h
      · simp only [hpd]
        exact ih s1 (p :: acc) (DMInv_pop_data s _ num s1 p h hpd)

/-- `pop_data_all_channels` preserves the reachability invariants. -/
theorem DMInv_popAll (s : DataManager) (n : Nat) (h : DMInv s) :
    DMInv (pop_data_all_channels s n).1 := by
  unfold pop_data_all_channels
  split
  · exact h
  · exact DMInv_popAllGo n _ s [] h

/-- Evaluation of `reinit_for_new_setup` when the capacity is non-zero. -/
theorem reinit_eval (s : DataManager) (hb : ¬ s.buffer_size = 0) :
    (reinit_for_new_setup s).2 =
      { channels := [freshChannel 0 ""], buffer_size := s.buffer_size,
        lowest_tail_index := 0, channel_discovery_mode := true,
        discovered_channels := [], max_channel_id := -1 } := by
  simp [reinit_for_new_setup, init_empty_buffer, hb, List.range_succ]

/-- `reinit_for_new_setup` re-establishes the reachability invariants. -/
theorem DMInv_reinit (s : DataManager) (h : DMInv s) :
    DMInv (reinit_for_new_setup s).2 := by
  rw [reinit_eval s (by rw [h.buf]; decide)]
  refine ⟨h.buf, ?_, ?_, ?_, ?_, ?_⟩
  · intro id hmem
    simp at hmem
  · intro i hi
    simp only [List.length_cons, List.length_nil] at hi
    have hi0 : i = 0 := by omega
    subst hi0
    rfl
  · intro i hi
    simp only [List.length_cons, List.length_nil] at hi
    have hi0 : i = 0 := by omega
    subst hi0
    exact Nat.le_refl 0
  · intro i hi
    simp only [List.length_cons, List.length_nil] at hi
    have hi0 : i = 0 := by omega
    subst hi0
    rfl
  · intro hm
    simp at hm

/-- Every reachable manager state satisfies the invariants. -/
theorem reachable_inv (s : DataManager) (h : Reachable s) : DMInv s := by
  induction h with
  | boot => exact DMInv_boot
  | discover s id name _ ih => exact DMInv_addOrExpand s id name ih
  | push s cid data s' _ hok ih => exact DMInv_push s cid data s' ih hok
  | popAll s n _ ih => exact DMInv_popAll s n ih
  | reinit s _ ih => exact DMInv_reinit s ih

/-- Claim C1, amended: `has_data_ready(min_samples)` consults the cached
`lowest_tail_index`, which is the minimum over discovered channels of
`tail_index = unconsumed mod 30000`, refreshed only by `push_data` and
`pop_data_all_channels`.  For every reachable state whose cache is fresh
(`update_lowest_tail_index` is a no-op) and whose discovered channels all hold
strictly fewer unconsumed samples than the buffer capacity, the claim's
reading holds: `has_data_ready(m)` is true iff discovery is complete and every
discovered channel holds at least `m` unconsumed samples (equivalently, the
minimum unconsumed count is ≥ m). -/
theorem C1_amended (s : DataManager) (m : Nat) (hr : Reachable s) (_hm : 1 ≤ m)
    (hsync : update_lowest_tail_index s = s)
    (hlt : ∀ id ∈ s.discovered_channels,
      unconsumed (s.channels.getD id default) < s.buffer_size) :
    has_data_ready s m = true ↔
      (s.channel_discovery_mode = false ∧
       ∀ id ∈ s.discovered_channels, m ≤ unconsumed (s.channels.getD id default)) := by
  have inv := reachable_inv s hr
  have hlow : s.lowest_tail_index = computeLowestTailIndex s := by
    conv_lhs => rw [← hsync]
    rfl
  by_cases hmode : s.channel_discovery_mode = true
  · constructor
    · intro hrd
      unfold has_data_ready at hrd
      by_cases hce : s.channels.isEmpty
      · rw [if_pos hce] at hrd
        exact absurd hrd (by decide)
      · rw [if_neg hce, if_pos hmode] at hrd
        exact absurd hrd (by decide)
    · rintro ⟨hmf, -⟩
      rw [hmode] at hmf
      exact absurd hmf (by decide)
  · have hmf : s.channel_discovery_mode = false := by
      cases hmo : s.channel_discovery_mode
      · rfl
      · exact absurd hmo hmode
    have hdisc_ne : s.discovered_channels ≠ [] := inv.mode_disc hmf
    have hch_ne : ¬ s.channels.isEmpty = true := by
      intro hemp
      rw [List.isEmpty_iff] at hemp
      obtain ⟨id0, hid0⟩ := List.exists_mem_of_ne_nil _ hdisc_ne
      have := inv.disc_lt id0 hid0
      rw [hemp] at this
      simp at this
    have hready : has_data_ready s m = decide (m ≤ s.lowest_tail_index) := by
      unfold has_data_ready
      rw [if_neg hch_ne, if_neg hmode]
    have hfilter : s.discovered_channels.filter (fun ch_id => ch_id < s.channels.length)
        = s.discovered_channels :=
      List.filter_eq_self.mpr (fun a ha => by simpa using inv.disc_lt a ha)
    have hmap : s.discovered_channels.map
          (fun ch_id => (s.channels.getD ch_id default).tail_index)
        = s.discovered_channels.map
          (fun ch_id => unconsumed (s.channels.getD ch_id default)) := by
      apply List.map_congr_left
      intro a ha
      rw [inv.tail_mod a (inv.disc_lt a ha)]
      apply Nat.mod_eq_of_lt
      have := hlt a ha
      rw [inv.buf] at this
      exact this
    have hcompute : computeLowestTailIndex s =
        match (s.discovered_channels.map
            (fun ch_id => unconsumed (s.channels.getD ch_id default))).min? with
        | some x => x
        | none => 0 := by
      unfold computeLowestTailIndex
      have hcond : ¬ (s.channels.isEmpty = true ∨ s.discovered_channels.isEmpty = true) := by
        rintro (hc | hd)
        · exact hch_ne hc
        · rw [List.isEmpty_iff] at hd
          exact hdisc_ne hd
      rw [if_neg hcond]
      dsimp only
      rw [hfilter, hmap]
    cases hminv : (s.discovered_channels.map
        (fun ch_id => unconsumed (s.channels.getD ch_id default))).min? with
    | none =>
      exfalso
      have : s.discovered_channels.map
          (fun ch_id => unconsumed (s.channels.getD ch_id default)) = [] := by
        simpa using hminv
      rw [List.map_eq_nil_iff] at this
      exact hdisc_ne this
    | some a =>
      obtain ⟨hmem, hleall⟩ := (List.min?_eq_some_iff' ..).mp hminv
      have hlow_a : s.lowest_tail_index = a := by
        rw [hlow, hcompute, hminv]
      constructor
      · intro hrd
        refine ⟨hmf, ?_⟩
        intro id hid
        rw [hready] at hrd
        have hm_le : m ≤ s.lowest_tail_index := of_decide_eq_true hrd
        rw [hlow_a] at hm_le
        have hb : a ≤ unconsumed (s.channels.getD id default) :=
          hleall _ (List.mem_map_of_mem _ hid)
        omega
      · rintro ⟨-, hall⟩
        rw [hready]
        apply decide_eq_true
        rw [hlow_a]
        obtain ⟨id0, hid0, hida⟩ := List.mem_map.mp hmem
        rw [← hida]
        exact hall id0 hid0

set_option maxRecDepth 40000 in
/-- Claim C1 fails on the code as stated: a reachable state (discover 0, push
500 samples, discover 1, repeat-discover 0) has discovery complete and a
channel with zero unconsumed samples, yet `has_data_ready(300)` answers true —
`lowest_tail_index` was last refreshed by the push, before channel 1 existed,
and bare discovery does not refresh it. -/
theorem C1_counterexample :
    Reachable staleState ∧
    staleState.channel_discovery_mode = false ∧
    has_data_ready staleState 300 = true ∧
    ∃ id ∈ staleState.discovered_channels,
      unconsumed (staleState.channels.getD id default) < 300 := by
  refine ⟨?_, by decide, by decide, ⟨1, by decide, by decide⟩⟩
  exact Reachable.discover staleMid2 0 none
    (Reachable.discover staleMid 1 none
      (Reachable.push dmA 0 (List.replicate 500 1) staleMid
        (Reachable.discover dmBoot 0 none Reachable.boot) rfl))

set_option maxRecDepth 40000 in
/-- Claim C1 (amended), witnessed at the spec's 500/300 synchronization
scenario: with the cache fresh, `has_data_ready(300)` is true,
`has_data_ready(301)` is false, and `pop_all(300)` succeeds on both channels
leaving channel 0 with exactly 200 unconsumed samples. -/
theorem C1_amended_witness :
    Reachable ex500 ∧
    update_lowest_tail_index ex500 = ex500 ∧
    (∀ id ∈ ex500.discovered_channels,
      unconsumed (ex500.channels.getD id default) < ex500.buffer_size) ∧
    has_data_ready ex500 300 = true ∧
    has_data_ready ex500 301 = false ∧
    errMsg (pop_data_all_channels ex500 300).2 = "" ∧
    unconsumed ((pop_data_all_channels ex500 300).1.channels.getD 0 default) = 200 ∧
    unconsumed ((pop_data_all_channels ex500 300).1.channels.getD 1 default) = 0 := by
  have hreach : Reachable ex500 :=
    Reachable.push exD 1 (List.replicate 300 2) ex500
      (Reachable.push exC 0 (List.replicate 500 1) exD
        (Reachable.discover c4base 0 none
          (Reachable.discover dmA 1 none
            (Reachable.discover dmBoot 0 none Reachable.boot))) rfl) rfl
  have hsync : update_lowest_tail_index ex500 = ex500 := rfl
  have hlt : ∀ id ∈ ex500.discovered_channels,
      unconsumed (ex500.channels.getD id default) < ex500.buffer_size := by decide
  refine ⟨hreach, hsync, hlt, ?_, ?_, by decide, by decide, by decide⟩
  · exact (C1_amended ex500 300 hreach (by decide) hsync hlt).mpr ⟨by decide, by decide⟩
  · have hiff := C1_amended ex500 301 hreach (by decide) hsync hlt
    have hnot : ¬ (ex500.channel_discovery_mode = false ∧
        ∀ id ∈ ex500.discovered_channels,
          301 ≤ unconsumed (ex500.channels.getD id default)) := by
      rintro ⟨-, hall⟩
      exact absurd (hall 1 (by decide)) (by decide)
    cases hb : has_data_ready ex500 301
    · rfl
    · exact absurd (hiff.mp hb) hnot

end Oez
